import Mathlib

/-!
Shallow embedding of the vocab-flow core (spaced-repetition scheduler,
question generator, answer checker, study-session state machine) from the
TypeScript sources, together with theorems settling the frozen claims.

Instants (JS `Date` / `getTime()` millisecond values) are modelled as `ℚ`
so that the interval arithmetic of the scheduler (which multiplies by the
non-integer difficulty multipliers 1.3 / 0.7) is exact.  JS `Math.random()`
draws are modelled as an explicit stream of rationals threaded through the
functions that call it, in source call order.
-/

/-- Difficulty rating (`src/src/types/vocabulary.ts`, `DifficultyRating`). -/
inductive DifficultyRating where
  | easy | good | hard
deriving DecidableEq, Repr

/-- The six question type tags actually used by `src/src/lib/questions.ts`
(the older `QuestionType` union in `vocabulary.ts` lists four obsolete tags
that no generator produces; the generator code is the authority here). -/
inductive QuestionType where
  | gap_fill_text | gap_fill_audio | context_meaning
  | simple_meaning | dictation | translation
deriving DecidableEq, Repr

/-- Model of `VocabularyWord` (`src/src/types/vocabulary.ts`).  The optional UI-only
fields `example_vi`, `extra_fields` and `source_file`, which no embedded core
function reads, are omitted.  Date-valued fields are rational ms instants. -/
structure VocabularyWord where
  id : String
  vocabulary : String
  meaning_vi : String
  meaning_en : String
  example_en : String
  topic : Option String
  level : Int
  next_review : ℚ
  last_reviewed : Option ℚ
  correct_count : Int
  incorrect_count : Int
  created_at : ℚ
deriving DecidableEq, Repr

/-- Model of `StudyQuestion` (`src/src/types/vocabulary.ts` plus the
`underlinedText` field that `generateContextMeaning` actually writes). -/
structure StudyQuestion where
  id : String
  word : VocabularyWord
  type : QuestionType
  question : String
  correctAnswer : String
  options : Option (List String)
  clozeText : Option String
  underlinedText : Option String
deriving DecidableEq, Repr

/-- Ambient impure context of the JS code: the `Math.random()` stream
(`rand` consumed at increasing indices `idx`) and the value of `Date.now()`
used in generated question ids. -/
structure Env where
  rand : Nat → ℚ
  idx : Nat
  now : Int

/-- One `Math.random()` call: yields the next stream value. -/
def Env.next (e : Env) : ℚ × Env :=
  (e.rand e.idx, { e with idx := e.idx + 1 })

/-! ## SRS scheduler (`src/unnamed/part_000`, i.e. `src/lib/srs.ts`) -/

/-- Model of `SRS_INTERVALS` (`src/src/types/vocabulary.ts`): base review intervals in
milliseconds, keyed by level.  A key outside 1–5 is `undefined` in JS (its use
would yield an invalid date); it is given the junk value 0 here and no theorem
evaluates it outside 1–5. -/
def SRS_INTERVALS : Int → ℚ
  | 1 => 10 * 60 * 1000
  | 2 => 24 * 60 * 60 * 1000
  | 3 => 3 * 24 * 60 * 60 * 1000
  | 4 => 7 * 24 * 60 * 60 * 1000
  | 5 => 25 * 24 * 60 * 60 * 1000
  | _ => 0

/-- Model of `DIFFICULTY_MULTIPLIERS` (`src/src/types/vocabulary.ts`). -/
def DIFFICULTY_MULTIPLIERS : DifficultyRating → ℚ
  | .easy => 13/10
  | .good => 1
  | .hard => 7/10

/-- Model of `calculateNextReview` (`srs.ts`).  The source reads `new Date()` itself;
the instant it reads is the explicit `now` parameter here. -/
def calculateNextReview (currentLevel : Int) (difficulty : DifficultyRating)
    (isCorrect : Bool) (now : ℚ) : Int × ℚ :=
  if !isCorrect then
    let newLevel := max 1 (currentLevel - 1)
    let interval := SRS_INTERVALS 1 * (1/2)
    (newLevel, now + interval)
  else
    let newLevel := min 5 (currentLevel + 1)
    let baseInterval := SRS_INTERVALS newLevel
    let multiplier := DIFFICULTY_MULTIPLIERS difficulty
    (newLevel, now + baseInterval * multiplier)

/-- The `aOverdue` flag of `sortByReviewPriority`'s comparator:
`new Date(a.next_review) < now`. -/
def isOverdue (now : ℚ) (w : VocabularyWord) : Bool :=
  w.next_review < now

/-- The `aDueToday` flag: `aNextReview <= todayEnd && !aOverdue`.
`todayEnd` is the local end-of-day instant the source computes with
`setHours(23, 59, 59, 999)`; being timezone-dependent it is a parameter. -/
def isDueToday (now todayEnd : ℚ) (w : VocabularyWord) : Bool :=
  w.next_review ≤ todayEnd && !isOverdue now w

/-- The `aNew` flag: `!a.last_reviewed` (absent `last_reviewed`). -/
def isNewWord (w : VocabularyWord) : Bool :=
  w.last_reviewed.isNone

/-- The comparator body of `sortByReviewPriority` (`srs.ts` lines 47–73),
returning the JS comparator's numeric result. -/
def reviewCmp (now todayEnd : ℚ) (a b : VocabularyWord) : ℚ :=
  let aO := isOverdue now a
  let bO := isOverdue now b
  let aDT := isDueToday now todayEnd a
  let bDT := isDueToday now todayEnd b
  let aN := isNewWord a
  let bN := isNewWord b
  if aO && !bO then -1
  else if !aO && bO then 1
  else if aDT && !bDT && !bO then -1
  else if !aDT && bDT && !aO then 1
  else if aN && !bN && !bO && !bDT then -1
  else if !aN && bN && !aO && !aDT then 1
  else if a.level ≠ b.level then (a.level : ℚ) - (b.level : ℚ)
  else a.next_review - b.next_review

/-- Model of `sortByReviewPriority` (`srs.ts`): `[...words].sort(cmp)`.  The JS engine's
sort is stable (ES2019) and the comparator is a consistent total preorder
(proved below), so its result is the unique stable ordering; it is embedded as
a stable insertion sort by the comparator. -/
def sortByReviewPriority (words : List VocabularyWord) (now todayEnd : ℚ) :
    List VocabularyWord :=
  List.insertionSort (fun a b => reviewCmp now todayEnd a b ≤ 0) words

/-- Model of `getDueWords` (`srs.ts`): `next_review <= now`. -/
def getDueWords (words : List VocabularyWord) (now : ℚ) : List VocabularyWord :=
  words.filter (fun w => w.next_review ≤ now)

/-- Model of `getWordsDueToday` (`srs.ts`): `next_review <= todayEnd`. -/
def getWordsDueToday (words : List VocabularyWord) (todayEnd : ℚ) :
    List VocabularyWord :=
  words.filter (fun w => w.next_review ≤ todayEnd)

/-- Model of `getNewWords` (`srs.ts`): `!word.last_reviewed`. -/
def getNewWords (words : List VocabularyWord) : List VocabularyWord :=
  words.filter (fun w => isNewWord w)

/-- Model of `selectWordsForSession` (`srs.ts`): sort then `slice(0, count)`. -/
def selectWordsForSession (words : List VocabularyWord) (count : Nat)
    (now todayEnd : ℚ) : List VocabularyWord :=
  (sortByReviewPriority words now todayEnd).take count

/-! ## Theorem for claim C1 -/

/-- Claim C1. For every integer level `L ∈ [1,5]`, difficulty `d` and instant
`now`: on an incorrect answer `calculateNextReview` yields level
`max 1 (L-1)` and instant `now + ½·baseInterval(1) = now + 5 min` regardless
of `L`; on a correct answer it yields level `min 5 (L+1)` and instant
`now + baseInterval(newLevel) · multiplier(d)`, with the base-interval table
L1=10 min, L2=1 day, L3=3 days, L4=7 days, L5=25 days and multipliers
easy=1.3, good=1.0, hard=0.7. -/
theorem calculateNextReview_spec (L : Int) (d : DifficultyRating) (now : ℚ)
    (h1 : 1 ≤ L) (h5 : L ≤ 5) :
    calculateNextReview L d false now = (max 1 (L - 1), now + 5 * 60 * 1000) ∧
    calculateNextReview L d true now =
      (min 5 (L + 1), now + SRS_INTERVALS (min 5 (L + 1)) * DIFFICULTY_MULTIPLIERS d) ∧
    SRS_INTERVALS 1 = 10 * 60 * 1000 ∧
    SRS_INTERVALS 2 = 24 * 60 * 60 * 1000 ∧
    SRS_INTERVALS 3 = 3 * 24 * 60 * 60 * 1000 ∧
    SRS_INTERVALS 4 = 7 * 24 * 60 * 60 * 1000 ∧
    SRS_INTERVALS 5 = 25 * 24 * 60 * 60 * 1000 ∧
    DIFFICULTY_MULTIPLIERS .easy = 13/10 ∧
    DIFFICULTY_MULTIPLIERS .good = 1 ∧
    DIFFICULTY_MULTIPLIERS .hard = 7/10 := by
  refine ⟨?_, ?_, rfl, rfl, rfl, rfl, rfl, rfl, rfl, rfl⟩
  · simp only [calculateNextReview, SRS_INTERVALS]
    norm_num
  · simp [calculateNextReview]

/-- Witness for C1 at `L = 3`, `d = easy`, `now = 0`: the incorrect branch
gives level 2 and +5 minutes, the correct branch gives level 4 and
7 days × 1.3 = 9.1 days. -/
theorem calculateNextReview_spec_witness :
    (1 ≤ (3:Int) ∧ (3:Int) ≤ 5) ∧
    (calculateNextReview 3 .easy false 0 = (2, 300000) ∧
      calculateNextReview 3 .easy true 0 = (4, 786240000)) := by
  have h := calculateNextReview_spec 3 .easy 0 (by norm_num) (by norm_num)
  refine ⟨⟨by norm_num, by norm_num⟩, ?_, ?_⟩
  · rw [h.1]; norm_num
  · rw [h.2.1]; norm_num [SRS_INTERVALS, DIFFICULTY_MULTIPLIERS]

/-! ## Priority buckets and the sort order (claims C4 and C10) -/

/-- The bucket a word falls into under the comparator of
`sortByReviewPriority`: 0 = overdue, 1 = due today, 2 = never reviewed,
3 = everything else. -/
def bucket (now todayEnd : ℚ) (w : VocabularyWord) : Nat :=
  if isOverdue now w then 0
  else if isDueToday now todayEnd w then 1
  else if isNewWord w then 2
  else 3

/-- The ordering claimed for `sortByReviewPriority`'s output: bucket
precedence first, then ascending level, then ascending next-review instant. -/
def keyLe (now todayEnd : ℚ) (a b : VocabularyWord) : Prop :=
  bucket now todayEnd a < bucket now todayEnd b ∨
    (bucket now todayEnd a = bucket now todayEnd b ∧
      (a.level < b.level ∨ (a.level = b.level ∧ a.next_review ≤ b.next_review)))

set_option maxHeartbeats 4000000 in
/-- The JS comparator is exactly the lexicographic (bucket, level,
next-review) order: it returns a non-positive number iff `keyLe` holds. -/
theorem reviewCmp_nonpos_iff (now todayEnd : ℚ) (a b : VocabularyWord) :
    reviewCmp now todayEnd a b ≤ 0 ↔ keyLe now todayEnd a b := by
  by_cases hA1 : a.next_review < now <;> by_cases hB1 : b.next_review < now <;>
    by_cases hA2 : a.next_review ≤ todayEnd <;> by_cases hB2 : b.next_review ≤ todayEnd <;>
      by_cases hAN : a.last_reviewed = none <;> by_cases hBN : b.last_reviewed = none <;>
        simp_all [reviewCmp, keyLe, bucket, isOverdue, isDueToday, isNewWord,
          sub_nonpos, Int.cast_le, Option.isNone_iff_eq_none] <;>
        (first
          | omega
          | linarith
          | (split_ifs <;> (first | rfl | omega | linarith | simp_all)))
  all_goals omega

/-- Model of `keyLe` is total. -/
theorem keyLe_total (now todayEnd : ℚ) (a b : VocabularyWord) :
    keyLe now todayEnd a b ∨ keyLe now todayEnd b a := by
  unfold keyLe
  rcases Nat.lt_trichotomy (bucket now todayEnd a) (bucket now todayEnd b) with h | h | h
  · exact Or.inl (Or.inl h)
  · rcases Int.lt_trichotomy a.level b.level with hl | hl | hl
    · exact Or.inl (Or.inr ⟨h, Or.inl hl⟩)
    · rcases le_total a.next_review b.next_review with hr | hr
      · exact Or.inl (Or.inr ⟨h, Or.inr ⟨hl, hr⟩⟩)
      · exact Or.inr (Or.inr ⟨h.symm, Or.inr ⟨hl.symm, hr⟩⟩)
    · exact Or.inr (Or.inr ⟨h.symm, Or.inl hl⟩)
  · exact Or.inr (Or.inl h)

/-- Model of `keyLe` is transitive. -/
theorem keyLe_trans (now todayEnd : ℚ) (a b c : VocabularyWord)
    (hab : keyLe now todayEnd a b) (hbc : keyLe now todayEnd b c) :
    keyLe now todayEnd a c := by
  unfold keyLe at *
  rcases hab with h1 | ⟨h1, h2⟩ <;> rcases hbc with h3 | ⟨h3, h4⟩
  · exact Or.inl (h1.trans h3)
  · exact Or.inl (h3 ▸ h1)
  · exact Or.inl (h1 ▸ h3)
  · refine Or.inr ⟨h1.trans h3, ?_⟩
    rcases h2 with h2 | ⟨h2, h2'⟩ <;> rcases h4 with h4 | ⟨h4, h4'⟩
    · exact Or.inl (h2.trans h4)
    · exact Or.inl (h4 ▸ h2)
    · exact Or.inl (h2 ▸ h4)
    · exact Or.inr ⟨h2.trans h4, h2'.trans h4'⟩

/-- Claim C4. For every list of items and instants, `sortByReviewPriority`
returns a permutation of its input (a new list; the embedding is pure, so the
input value is untouched) that is ordered by bucket precedence — overdue,
then due today, then never reviewed, then everything else — and within each
bucket by ascending level, then ascending next-review instant
(`keyLe` is exactly that lexicographic order on
(bucket, level, next_review)). -/
theorem sortByReviewPriority_spec (words : List VocabularyWord) (now todayEnd : ℚ) :
    (sortByReviewPriority words now todayEnd).Perm words ∧
    (sortByReviewPriority words now todayEnd).Sorted (keyLe now todayEnd) := by
  refine ⟨List.perm_insertionSort _ words, ?_⟩
  have hs : (sortByReviewPriority words now todayEnd).Sorted
      (fun a b => reviewCmp now todayEnd a b ≤ 0) := by
    haveI : IsTotal VocabularyWord (fun a b => reviewCmp now todayEnd a b ≤ 0) := ⟨by
      intro a b
      rcases keyLe_total now todayEnd a b with h | h
      · exact Or.inl ((reviewCmp_nonpos_iff now todayEnd a b).mpr h)
      · exact Or.inr ((reviewCmp_nonpos_iff now todayEnd b a).mpr h)⟩
    haveI : IsTrans VocabularyWord (fun a b => reviewCmp now todayEnd a b ≤ 0) := ⟨by
      intro a b c hab hbc
      exact (reviewCmp_nonpos_iff now todayEnd a c).mpr
        (keyLe_trans now todayEnd a b c
          ((reviewCmp_nonpos_iff now todayEnd a b).mp hab)
          ((reviewCmp_nonpos_iff now todayEnd b c).mp hbc))⟩
    exact List.sorted_insertionSort _ words
  exact hs.imp (fun h => (reviewCmp_nonpos_iff now todayEnd _ _).mp h)

/-- Claim C10. `getDueWords` keeps exactly the items with
`next_review ≤ now` (inclusive bound); an item whose `next_review` equals
`now` exactly is returned by `getDueWords`, yet the comparator's overdue flag
(strict `next_review < now`) is false for it, so it is not in the overdue
bucket for any end-of-day instant. -/
theorem getDueWords_inclusive (words : List VocabularyWord) (now : ℚ)
    (w : VocabularyWord) (hw : w ∈ words) (heq : w.next_review = now) :
    (∀ v, v ∈ getDueWords words now ↔ v ∈ words ∧ v.next_review ≤ now) ∧
    w ∈ getDueWords words now ∧
    isOverdue now w = false ∧
    ∀ todayEnd, bucket now todayEnd w ≠ 0 := by
  have hmem : ∀ v, v ∈ getDueWords words now ↔ v ∈ words ∧ v.next_review ≤ now := by
    intro v
    simp [getDueWords]
  refine ⟨hmem, (hmem w).mpr ⟨hw, le_of_eq heq⟩, ?_, ?_⟩
  · simp [isOverdue, heq]
  · intro todayEnd
    simp only [bucket, isOverdue, heq]
    split_ifs <;> simp_all

/-- A concrete vocabulary item used by several witnesses. -/
def sampleWord : VocabularyWord :=
  { id := "w1", vocabulary := "run", meaning_vi := "chay", meaning_en := "to move fast",
    example_en := "I run daily.", topic := none, level := 1, next_review := 0,
    last_reviewed := none, correct_count := 0, incorrect_count := 0, created_at := 0 }

/-- Witness for C10: an item due exactly now is returned by `getDueWords`
but is not flagged overdue and is not in bucket 0. -/
theorem getDueWords_inclusive_witness :
    (sampleWord ∈ [sampleWord] ∧ sampleWord.next_review = 0) ∧
    (sampleWord ∈ getDueWords [sampleWord] 0 ∧ isOverdue 0 sampleWord = false ∧
      bucket 0 0 sampleWord ≠ 0) := by
  have h := getDueWords_inclusive [sampleWord] 0 sampleWord (by simp) rfl
  exact ⟨⟨by simp, rfl⟩, h.2.1, h.2.2.1, h.2.2.2 0⟩

/-! ## Answer checker (`src/src/lib/questions.ts`, `checkAnswer`)

The checker lives in the `Questions` namespace because Mathlib already has a
root-level `normalize`. -/

namespace Questions

/-- The JS regex `\w` class: ASCII letters, digits and underscore. -/
def isWordCharJs (c : Char) : Bool := c.isAlphanum || c == '_'

/-- The JS regex `\s` class (ECMAScript WhiteSpace and LineTerminator code
points). -/
def isJsSpace (c : Char) : Bool :=
  c == '\u0009' || c == '\u000A' || c == '\u000B' || c == '\u000C' ||
  c == '\u000D' || c == '\u0020' || c == '\u00A0' || c == '\u1680' ||
  ('\u2000' ≤ c && c ≤ '\u200A') || c == '\u2028' || c == '\u2029' ||
  c == '\u202F' || c == '\u205F' || c == '\u3000' || c == '\uFEFF'

/-- JS `String.prototype.trim`: drop leading and trailing whitespace. -/
def jsTrim (s : List Char) : List Char :=
  ((s.dropWhile isJsSpace).reverse.dropWhile isJsSpace).reverse

/-- Model of `replace(/[^\w\s]/g, '')`: keep only `\w` and `\s` characters. -/
def stripPunct (s : List Char) : List Char :=
  s.filter (fun c => isWordCharJs c || isJsSpace c)

/-- Model of `replace(/\s+/g, ' ')`: each maximal whitespace run becomes one space.
The flag records whether the previous character was inside a run. -/
def collapseWs : List Char → Bool → List Char
  | [], _ => []
  | c :: cs, inRun =>
    if isJsSpace c then
      if inRun then collapseWs cs true else ' ' :: collapseWs cs true
    else c :: collapseWs cs false

/-- The `normalize` closure inside `checkAnswer`:
`s.toLowerCase().trim().replace(/[^\w\s]/g, '').replace(/\s+/g, ' ')`.
JS lowercasing is modelled per character by `Char.toLower` (ASCII mapping),
which agrees with JS on every character whose lowercase form is itself or an
ASCII letter. -/
def normalize (s : String) : String :=
  String.mk (collapseWs (stripPunct (jsTrim (s.toList.map Char.toLower))) false)

/-- Model of `checkAnswer` (`questions.ts`). -/
def checkAnswer (userAnswer correctAnswer : String) : Bool :=
  normalize userAnswer == normalize correctAnswer

end Questions

/-- Claim C3 counterexample. The claim says `normalize` preserves non-Latin
letters and diacritics intact, and hence that `checkAnswer "éa" "a"` is
false (their claimed normal forms "éa" and "a" differ).  In the code `\w`
is ASCII-only, so `é` is stripped as punctuation: `normalize "é" = ""` (the
diacritic letter does not survive) and `checkAnswer "éa" "a" = true`. -/
theorem checkAnswer_diacritics_counterexample :
    Questions.normalize "é" = "" ∧ Questions.normalize "é" ≠ "é" ∧
    Questions.checkAnswer "éa" "a" = true := by
  refine ⟨by decide, by decide, by decide⟩

/-- Claim C3, amended. `checkAnswer(user, correct)` is true exactly when
`normalize user = normalize correct`, where `normalize` lowercases, trims,
removes every character outside ASCII letters/digits/underscore and
whitespace (so non-Latin letters and diacritics are stripped rather than
preserved), and collapses whitespace runs to single spaces; in particular
`checkAnswer "  Run!!" "run"` is true and `checkAnswer x x` is true for
every `x`. -/
theorem checkAnswer_spec :
    (∀ u c, Questions.checkAnswer u c = true ↔
      Questions.normalize u = Questions.normalize c) ∧
    Questions.checkAnswer "  Run!!" "run" = true ∧
    (∀ x, Questions.checkAnswer x x = true) ∧
    Questions.normalize "é" = "" := by
  have hmain : ∀ u c, Questions.checkAnswer u c = true ↔
      Questions.normalize u = Questions.normalize c := by
    intro u c
    simp [Questions.checkAnswer]
  exact ⟨hmain, by decide, fun x => (hmain x x).mpr rfl, by decide⟩

/-- Witness for C3's amended theorem: the equivalence applied at a concrete
pair of strings differing in case, punctuation and whitespace. -/
theorem checkAnswer_spec_witness :
    Questions.checkAnswer "a   b" "A b?" = true :=
  (checkAnswer_spec.1 "a   b" "A b?").mpr (by decide)

/-! ## Question generator (`src/src/lib/questions.ts`)

The generators call `Math.random()` (via the `.sort(() => Math.random() -
0.5)` shuffles and the type pick) and `Date.now()`; both come from the
threaded `Env`.  JS's engine-defined sort with a random comparator is
modelled as an insertion sort that consumes one stream value per
comparison — any faithful model produces some permutation, which is all the
source relies on. -/

namespace Questions

/-- JS `String.prototype.toLowerCase`, per character (ASCII mapping). -/
def jsToLower (s : String) : String :=
  String.mk (s.toList.map Char.toLower)

/-- A regex `\b` word boundary between two adjacent positions (out of range
counts as a non-word character). -/
def bdry (a b : Option Char) : Bool :=
  (match a with | none => false | some c => isWordCharJs c) !=
    (match b with | none => false | some c => isWordCharJs c)

/-- One pattern character of the regex built by the unescaped interpolation
`new RegExp(`\b${vocabulary}\b`, 'gi')`, matched against one text character:
`.` is the regex wildcard (any character except a line terminator), every
other character matches itself case-insensitively (the pattern is already
lowercased by the callers, the text character is folded).  Among the
characters that ECMAScript does not treat as quantifiers, groups, classes,
alternation, anchors or escapes — on those (`\ * + ? ( ) [ ] \x7b \x7d | ^ $`)
the constructor would quantify, group or throw, and they are outside this
model's scope — only `.` carries a special meaning, so on `regexSafe`
vocabulary plus `.` this per-character matching is the exact regex
semantics. -/
def reChar (p c : Char) : Bool :=
  if p == '.' then
    !(c == '\n' || c == '\r' || c == '\u2028' || c == '\u2029')
  else p == Char.toLower c

/-- Matches the pattern characters one-for-one against a prefix of the text
(the modelled fragment has no quantifiers, so each pattern character consumes
exactly one text character); `m` is the per-character matcher. -/
def reMatchWith (m : Char → Char → Bool) : List Char → List Char → Bool
  | [], _ => true
  | _ :: _, [] => false
  | p :: ps, c :: cs => m p c && reMatchWith m ps cs

/-- Whether the pattern `\b v \b` matches at the start of `s` under the
per-character matcher `m`, with `prev` the character just before `s`.  The
`\b` assertions are judged on the actual matched text characters (as in the
regex), not on the pattern characters. -/
def matchAt (m : Char → Char → Bool) (v : List Char) (prev : Option Char)
    (s : List Char) : Bool :=
  match v with
  | [] => bdry prev s.head?
  | _ :: _ =>
    reMatchWith m v s && bdry prev s.head? &&
      bdry ((s.take v.length).getLast?) ((s.drop v.length).head?)

/-- Scan of `regex.test`: does `\b v \b` match anywhere? -/
def hasWWAux (m : Char → Char → Bool) (v : List Char) :
    Option Char → List Char → Bool
  | prev, [] => matchAt m v prev []
  | prev, c :: cs => matchAt m v prev (c :: cs) || hasWWAux m v (some c) cs

/-- Model of `new RegExp(`\b${vocabulary}\b`, 'gi').test(example)`: the
vocabulary is interpolated unescaped, so its characters keep their regex
meaning (`reChar`); exact for vocabulary whose only metacharacter is `.`. -/
def testWholeWord (ex vocab : String) : Bool :=
  hasWWAux reChar vocab.toList none ex.toList

/-- Model of `example.replace(regex, repl)` with the same whole-word regex: every
(non-overlapping, left-to-right) match is replaced by the fixed string
`repl`.  The empty-pattern edge (`vocabulary = ""`, where the JS regex
inserts at every boundary) is not modelled; no claim touches it. -/
def replaceWW (m : Char → Char → Bool) (v repl : List Char)
    (prev : Option Char) (s : List Char) : List Char :=
  match s with
  | [] => []
  | c :: cs =>
    if h : v ≠ [] ∧ matchAt m v prev (c :: cs) = true then
      repl ++ replaceWW m v repl ((c :: cs).take v.length).getLast?
        ((c :: cs).drop v.length)
    else
      c :: replaceWW m v repl (some c) cs
termination_by s.length
decreasing_by
  · simp only [List.length_drop, List.length_cons]
    have : 1 ≤ v.length := List.length_pos.mpr h.1
    omega
  · simp [Nat.lt_succ_self]

/-- Model of `example.replace(regex, '<u>$1</u>')`: each match is kept and wrapped in
the `pre`/`post` strings (the capture group reproduces the matched text). -/
def wrapWW (m : Char → Char → Bool) (v pre post : List Char)
    (prev : Option Char) (s : List Char) : List Char :=
  match s with
  | [] => []
  | c :: cs =>
    if h : v ≠ [] ∧ matchAt m v prev (c :: cs) = true then
      pre ++ (c :: cs).take v.length ++ post ++
        wrapWW m v pre post ((c :: cs).take v.length).getLast?
          ((c :: cs).drop v.length)
    else
      c :: wrapWW m v pre post (some c) cs
termination_by s.length
decreasing_by
  · simp only [List.length_drop, List.length_cons]
    have : 1 ≤ v.length := List.length_pos.mpr h.1
    omega
  · simp [Nat.lt_succ_self]

/-- One comparator call of `.sort(() => Math.random() - 0.5)` while inserting
`a` into the already-processed suffix. -/
def rsInsert {α : Type} (a : α) : List α → Env → List α × Env
  | [], e => ([a], e)
  | b :: bs, e =>
    let r := (Env.next e).1
    let e1 := (Env.next e).2
    if r - 1/2 ≤ 0 then (a :: b :: bs, e1)
    else
      let p := rsInsert a bs e1
      (b :: p.1, p.2)

/-- Model of `arr.sort(() => Math.random() - 0.5)`: a random-comparator sort,
modelled as insertion sort over the random stream. -/
def randSort {α : Type} : List α → Env → List α × Env
  | [], e => ([], e)
  | a :: as, e =>
    let p := randSort as e
    rsInsert a p.1 p.2

/-- The shared collection loop of `getDistractorWords` /
`getDistractorMeanings`: walk the shuffled candidates, keeping up to `count`
values of field `f` that differ from the canonical answer and from every
value already kept. -/
def collectBy (f : VocabularyWord → String) (canonical : String) (count : Nat) :
    List VocabularyWord → List String → List String
  | [], acc => acc
  | w :: ws, acc =>
    if count ≤ acc.length then acc
    else if f w != canonical && !(acc.contains (f w)) then
      collectBy f canonical count ws (acc ++ [f w])
    else collectBy f canonical count ws acc

/-- Fuel-driven body of the `while (distractors.length < count)` padding
loop; each pass pushes `pfx ++ (length+1)`.  `count - acc.length` passes
always suffice, so running it on that much fuel is the loop. -/
def padAux (pfx : String) (count : Nat) : Nat → List String → List String
  | 0, acc => acc
  | fuel + 1, acc =>
    if acc.length < count then
      padAux pfx count fuel (acc ++ [pfx ++ toString (acc.length + 1)])
    else acc

/-- The `while (distractors.length < count)` padding loop: push
`pfx ++ (length+1)` until `count` entries exist (`pfx` is `"word"` for
vocabulary distractors and `"meaning "` for meaning distractors). -/
def padPlaceholders (pfx : String) (count : Nat) (acc : List String) :
    List String :=
  padAux pfx count (count - acc.length) acc

/-- Model of `getDistractorWords` (`questions.ts`). -/
def getDistractorWords (word : VocabularyWord) (allWords : List VocabularyWord)
    (count : Nat) (e : Env) : List String × Env :=
  let sameTopicWords := allWords.filter (fun w => w.id != word.id && w.topic == word.topic)
  let otherWords := allWords.filter (fun w => w.id != word.id && w.topic != word.topic)
  let potentialDistractors := sameTopicWords ++ otherWords
  let sh := randSort potentialDistractors e
  (padPlaceholders "word" count
    (collectBy (fun w => w.vocabulary) word.vocabulary count sh.1 []), sh.2)

/-- Model of `getDistractorMeanings` (`questions.ts`). -/
def getDistractorMeanings (word : VocabularyWord) (allWords : List VocabularyWord)
    (count : Nat) (e : Env) : List String × Env :=
  let sameTopicWords := allWords.filter (fun w => w.id != word.id && w.topic == word.topic)
  let otherWords := allWords.filter (fun w => w.id != word.id && w.topic != word.topic)
  let potentialDistractors := sameTopicWords ++ otherWords
  let sh := randSort potentialDistractors e
  (padPlaceholders "meaning " count
    (collectBy (fun w => w.meaning_vi) word.meaning_vi count sh.1 []), sh.2)

/-- Model of `generateGapFillText` (`questions.ts`, Type A). -/
def generateGapFillText (word : VocabularyWord) (allWords : List VocabularyWord)
    (e : Env) : Option StudyQuestion × Env :=
  let ex := word.example_en
  let vocabulary := jsToLower word.vocabulary
  if testWholeWord ex vocabulary then
    let clozeText := String.mk
      (replaceWW reChar vocabulary.toList "[_____]".toList none ex.toList)
    let d := getDistractorWords word allWords 3 e
    let o := randSort (word.vocabulary :: d.1) d.2
    (some { id := "gap-text-" ++ word.id ++ "-" ++ toString e.now,
            word := word, type := .gap_fill_text,
            question := "Fill in the blank:",
            correctAnswer := word.vocabulary,
            options := some o.1, clozeText := some clozeText,
            underlinedText := none }, o.2)
  else (none, e)

/-- Model of `generateGapFillAudio` (`questions.ts`, Type B). -/
def generateGapFillAudio (word : VocabularyWord) (allWords : List VocabularyWord)
    (e : Env) : Option StudyQuestion × Env :=
  let ex := word.example_en
  let vocabulary := jsToLower word.vocabulary
  if testWholeWord ex vocabulary then
    let clozeText := String.mk
      (replaceWW reChar vocabulary.toList "[_____]".toList none ex.toList)
    let d := getDistractorWords word allWords 3 e
    let o := randSort (word.vocabulary :: d.1) d.2
    (some { id := "gap-audio-" ++ word.id ++ "-" ++ toString e.now,
            word := word, type := .gap_fill_audio,
            question := "Listen and fill in the blank:",
            correctAnswer := word.vocabulary,
            options := some o.1, clozeText := some clozeText,
            underlinedText := none }, o.2)
  else (none, e)

/-- Model of `generateContextMeaning` (`questions.ts`, Type C; always available). -/
def generateContextMeaning (word : VocabularyWord) (allWords : List VocabularyWord)
    (e : Env) : StudyQuestion × Env :=
  let ex := word.example_en
  let vocabulary := word.vocabulary
  let underlinedText := String.mk
    (wrapWW reChar vocabulary.toList "<u>".toList "</u>".toList none ex.toList)
  let d := getDistractorMeanings word allWords 3 e
  let o := randSort (word.meaning_vi :: d.1) d.2
  ({ id := "context-" ++ word.id ++ "-" ++ toString e.now,
     word := word, type := .context_meaning,
     question := "What does the underlined word mean?",
     correctAnswer := word.meaning_vi,
     options := some o.1, clozeText := none,
     underlinedText := some underlinedText }, o.2)

/-- Model of `generateSimpleMeaning` (`questions.ts`, Type D; always available). -/
def generateSimpleMeaning (word : VocabularyWord) (allWords : List VocabularyWord)
    (e : Env) : StudyQuestion × Env :=
  let d := getDistractorMeanings word allWords 3 e
  let o := randSort (word.meaning_vi :: d.1) d.2
  ({ id := "simple-" ++ word.id ++ "-" ++ toString e.now,
     word := word, type := .simple_meaning,
     question := "What does \"" ++ word.vocabulary ++ "\" mean?",
     correctAnswer := word.meaning_vi,
     options := some o.1, clozeText := none, underlinedText := none }, o.2)

/-- Model of `generateDictation` (`questions.ts`, Type E; always available). -/
def generateDictation (word : VocabularyWord) (e : Env) : StudyQuestion × Env :=
  ({ id := "dictation-" ++ word.id ++ "-" ++ toString e.now,
     word := word, type := .dictation,
     question := "Listen and type what you hear:",
     correctAnswer := word.vocabulary,
     options := none, clozeText := none, underlinedText := none }, e)

/-- Model of `generateTranslation` (`questions.ts`, Type F; always available). -/
def generateTranslation (word : VocabularyWord) (e : Env) : StudyQuestion × Env :=
  ({ id := "translation-" ++ word.id ++ "-" ++ toString e.now,
     word := word, type := .translation,
     question := "Type the English word for:",
     correctAnswer := word.vocabulary,
     options := none, clozeText := none, underlinedText := none }, e)

/-- Model of `availableTypes[Math.floor(Math.random() * availableTypes.length)]`:
out-of-range indexing is JS `undefined`, modelled as `none`. -/
def pickRandomType (ts : List QuestionType) (e : Env) :
    Option QuestionType × Env :=
  let r := (Env.next e).1
  let e1 := (Env.next e).2
  let i : Int := Int.floor (r * ts.length)
  (if 0 ≤ i then ts.get? i.toNat else none, e1)

/-- Model of `generateQuestion` (`questions.ts`): probe both gap-fill variants, build
the available-type list, honour the preferred type when available (else pick
at random), then dispatch; the `||` fallbacks of the gap cases and the
`default` case are kept as in the source. -/
def generateQuestion (word : VocabularyWord) (allWords : List VocabularyWord)
    (preferredType : Option QuestionType) (e : Env) : StudyQuestion × Env :=
  let g1 := generateGapFillText word allWords e
  let g2 := generateGapFillAudio word allWords g1.2
  let availableTypes :=
    (if g1.1.isSome then [QuestionType.gap_fill_text] else []) ++
    (if g2.1.isSome then [QuestionType.gap_fill_audio] else []) ++
    [QuestionType.context_meaning, QuestionType.simple_meaning,
     QuestionType.dictation, QuestionType.translation]
  let sel :=
    match preferredType with
    | some t =>
      if availableTypes.contains t then (some t, g2.2)
      else pickRandomType availableTypes g2.2
    | none => pickRandomType availableTypes g2.2
  match sel.1 with
  | some .gap_fill_text =>
    match g1.1 with
    | some q => (q, sel.2)
    | none => generateSimpleMeaning word allWords sel.2
  | some .gap_fill_audio =>
    match g2.1 with
    | some q => (q, sel.2)
    | none => generateDictation word sel.2
  | some .context_meaning => generateContextMeaning word allWords sel.2
  | some .simple_meaning => generateSimpleMeaning word allWords sel.2
  | some .dictation => generateDictation word sel.2
  | some .translation => generateTranslation word sel.2
  | none => generateSimpleMeaning word allWords sel.2

/-- The `allTypes` array of `generateSessionQuestions`. -/
def allTypes : List QuestionType :=
  [.gap_fill_text, .gap_fill_audio, .context_meaning,
   .simple_meaning, .dictation, .translation]

/-- The `for` loop of `generateSessionQuestions`: one question per word,
preferred type `shuffledTypes[i % shuffledTypes.length]`. -/
def genLoop (allWords : List VocabularyWord) (shuffledTypes : List QuestionType) :
    List VocabularyWord → Nat → Env → List StudyQuestion × Env
  | [], _, e => ([], e)
  | w :: ws, i, e =>
    let q := generateQuestion w allWords
      (shuffledTypes.get? (i % shuffledTypes.length)) e
    let rest := genLoop allWords shuffledTypes ws (i + 1) q.2
    (q.1 :: rest.1, rest.2)

/-- Model of `generateSessionQuestions` (`questions.ts`). -/
def generateSessionQuestions (words allWords : List VocabularyWord) (e : Env) :
    List StudyQuestion × Env :=
  if words.length = 0 then ([], e)
  else
    let sh := randSort allTypes e
    genLoop allWords sh.1 words 0 sh.2

end Questions

/-! ## Basic generator facts -/

namespace Questions

theorem generateSimpleMeaning_word (w : VocabularyWord) (a : List VocabularyWord)
    (e : Env) : (generateSimpleMeaning w a e).1.word = w := rfl

theorem generateContextMeaning_word (w : VocabularyWord) (a : List VocabularyWord)
    (e : Env) : (generateContextMeaning w a e).1.word = w := rfl

theorem generateDictation_word (w : VocabularyWord) (e : Env) :
    (generateDictation w e).1.word = w := rfl

theorem generateTranslation_word (w : VocabularyWord) (e : Env) :
    (generateTranslation w e).1.word = w := rfl

theorem generateSimpleMeaning_type (w : VocabularyWord) (a : List VocabularyWord)
    (e : Env) : (generateSimpleMeaning w a e).1.type = .simple_meaning := rfl

theorem generateContextMeaning_type (w : VocabularyWord) (a : List VocabularyWord)
    (e : Env) : (generateContextMeaning w a e).1.type = .context_meaning := rfl

theorem generateDictation_type (w : VocabularyWord) (e : Env) :
    (generateDictation w e).1.type = .dictation := rfl

theorem generateTranslation_type (w : VocabularyWord) (e : Env) :
    (generateTranslation w e).1.type = .translation := rfl

/-- When the term does not whole-word match the example, Type A is
unavailable and consumes no randomness. -/
theorem generateGapFillText_none (w : VocabularyWord) (a : List VocabularyWord)
    (e : Env) (h : testWholeWord w.example_en (jsToLower w.vocabulary) = false) :
    generateGapFillText w a e = (none, e) := by
  simp [generateGapFillText, h]

/-- Same for Type B. -/
theorem generateGapFillAudio_none (w : VocabularyWord) (a : List VocabularyWord)
    (e : Env) (h : testWholeWord w.example_en (jsToLower w.vocabulary) = false) :
    generateGapFillAudio w a e = (none, e) := by
  simp [generateGapFillAudio, h]

/-- A produced Type A question carries its word and the tag
`gap_fill_text`. -/
theorem generateGapFillText_out (w : VocabularyWord) (a : List VocabularyWord)
    (e : Env) (q : StudyQuestion) (h : (generateGapFillText w a e).1 = some q) :
    q.word = w ∧ q.type = .gap_fill_text := by
  by_cases ht : testWholeWord w.example_en (jsToLower w.vocabulary)
  · simp only [generateGapFillText, ht, if_true] at h
    cases h
    exact ⟨rfl, rfl⟩
  · rw [generateGapFillText_none w a e (by simpa using ht)] at h
    cases h

/-- A produced Type B question carries its word and the tag
`gap_fill_audio`. -/
theorem generateGapFillAudio_out (w : VocabularyWord) (a : List VocabularyWord)
    (e : Env) (q : StudyQuestion) (h : (generateGapFillAudio w a e).1 = some q) :
    q.word = w ∧ q.type = .gap_fill_audio := by
  by_cases ht : testWholeWord w.example_en (jsToLower w.vocabulary)
  · simp only [generateGapFillAudio, ht, if_true] at h
    cases h
    exact ⟨rfl, rfl⟩
  · rw [generateGapFillAudio_none w a e (by simpa using ht)] at h
    cases h

end Questions

namespace Questions

/-- Every question produced by `generateQuestion` references the item it was
generated from. -/
theorem generateQuestion_word (w : VocabularyWord) (a : List VocabularyWord)
    (p : Option QuestionType) (e : Env) :
    (generateQuestion w a p e).1.word = w := by
  simp only [generateQuestion]
  rcases hg1 : (generateGapFillText w a e).1 with _ | q1 <;>
    rcases hg2 : (generateGapFillAudio w a (generateGapFillText w a e).2).1 with _ | q2 <;>
      simp only [hg1, hg2] <;>
        split <;>
          first
            | rfl
            | exact (generateGapFillText_out _ _ _ _ hg1).1
            | exact (generateGapFillAudio_out _ _ _ _ hg2).1

/-- The generation loop yields exactly one question per word, in order. -/
theorem genLoop_map_word (a : List VocabularyWord) (tys : List QuestionType) :
    ∀ (ws : List VocabularyWord) (i : Nat) (e : Env),
      ((genLoop a tys ws i e).1.map (fun q => q.word)) = ws := by
  intro ws
  induction ws with
  | nil => intro i e; rfl
  | cons w rest ih =>
    intro i e
    simp [genLoop, generateQuestion_word, ih]

/-- Model of `generateSessionQuestions` is 1:1 with its input items. -/
theorem generateSessionQuestions_map_word (words allWords : List VocabularyWord)
    (e : Env) :
    ((generateSessionQuestions words allWords e).1.map (fun q => q.word)) = words := by
  rcases words with _ | ⟨w, ws⟩
  · rfl
  · simp only [generateSessionQuestions, List.length_cons]
    rw [if_neg (by omega)]
    exact genLoop_map_word allWords _ (w :: ws) 0 _

end Questions

/-- Model of `MAX_QUESTIONS` (`useStudySession.ts` / the session hook in
`useVocabulary.ts`). -/
def MAX_QUESTIONS : Nat := 100

/-- The selection-and-generation part of `startSession`: select up to
`MAX_QUESTIONS` items, fail (`none`, no state change) on an empty selection,
else generate the session questions and `slice(0, MAX_QUESTIONS)`. -/
def startSessionQuestions (allWords : List VocabularyWord) (now todayEnd : ℚ)
    (e : Env) : Option (List VocabularyWord × List StudyQuestion) :=
  let selected := selectWordsForSession allWords MAX_QUESTIONS now todayEnd
  if selected.length = 0 then none
  else some (selected,
    (Questions.generateSessionQuestions selected allWords e).1.take MAX_QUESTIONS)

/-- Claim C7. `generateSessionQuestions` returns as many questions as items and
question `i` references item `i` (expressed as: mapping each question to its
word gives back the input list); consequently a successful `start()` produces
exactly one question per selected item, never more than `MAX_QUESTIONS`. -/
theorem generateSessionQuestions_one_to_one
    (words allWords : List VocabularyWord) (e : Env)
    (allW2 : List VocabularyWord) (now todayEnd : ℚ) (e2 : Env)
    (sel : List VocabularyWord) (qs : List StudyQuestion)
    (hstart : startSessionQuestions allW2 now todayEnd e2 = some (sel, qs)) :
    ((Questions.generateSessionQuestions words allWords e).1.map (fun q => q.word))
      = words ∧
    (Questions.generateSessionQuestions words allWords e).1.length = words.length ∧
    qs.map (fun q => q.word) = sel ∧
    qs.length = sel.length ∧
    qs.length ≤ MAX_QUESTIONS := by
  have hmap := Questions.generateSessionQuestions_map_word words allWords e
  have hlen : (Questions.generateSessionQuestions words allWords e).1.length
      = words.length := by
    calc (Questions.generateSessionQuestions words allWords e).1.length
        = ((Questions.generateSessionQuestions words allWords e).1.map
            (fun q => q.word)).length := (List.length_map _ _).symm
      _ = words.length := by rw [hmap]
  simp only [startSessionQuestions] at hstart
  by_cases hz :
      (selectWordsForSession allW2 MAX_QUESTIONS now todayEnd).length = 0
  · rw [if_pos hz] at hstart
    cases hstart
  · rw [if_neg hz] at hstart
    have hsel : sel = selectWordsForSession allW2 MAX_QUESTIONS now todayEnd := by
      cases hstart
      rfl
    have hqs : qs = (Questions.generateSessionQuestions
        (selectWordsForSession allW2 MAX_QUESTIONS now todayEnd) allW2 e2).1.take
          MAX_QUESTIONS := by
      cases hstart
      rfl
    have hsellen : sel.length ≤ MAX_QUESTIONS := by
      rw [hsel]
      simpa [selectWordsForSession] using
        (List.length_take MAX_QUESTIONS
          (sortByReviewPriority allW2 now todayEnd)).le.trans (by simp)
    have hqsmap : qs.map (fun q => q.word) = sel := by
      rw [hqs, List.map_take,
        Questions.generateSessionQuestions_map_word, hsel]
      simp [selectWordsForSession, List.take_take]
    have hqslen : qs.length = sel.length := by
      calc qs.length = (qs.map (fun q => q.word)).length := (List.length_map _ _).symm
        _ = sel.length := by rw [hqsmap]
    exact ⟨hmap, hlen, hqsmap, hqslen, hqslen ▸ hsellen⟩

/-- A fixed random stream for witnesses: every draw is 1/2. -/
def envHalf : Env := { rand := fun _ => 1/2, idx := 0, now := 0 }

/-- Witness for C7 at a one-item corpus. -/
theorem generateSessionQuestions_one_to_one_witness :
    startSessionQuestions [sampleWord] 0 0 envHalf =
      some (selectWordsForSession [sampleWord] MAX_QUESTIONS 0 0,
        (Questions.generateSessionQuestions
          (selectWordsForSession [sampleWord] MAX_QUESTIONS 0 0) [sampleWord]
          envHalf).1.take MAX_QUESTIONS) ∧
    ((Questions.generateSessionQuestions [sampleWord] [] envHalf).1.map
      (fun q => q.word)) = [sampleWord] := by
  have hstart : startSessionQuestions [sampleWord] 0 0 envHalf =
      some (selectWordsForSession [sampleWord] MAX_QUESTIONS 0 0,
        (Questions.generateSessionQuestions
          (selectWordsForSession [sampleWord] MAX_QUESTIONS 0 0) [sampleWord]
          envHalf).1.take MAX_QUESTIONS) := by
    rw [startSessionQuestions]
    rw [if_neg (by decide)]
  have h := generateSessionQuestions_one_to_one [sampleWord] [] envHalf
    [sampleWord] 0 0 envHalf _ _ hstart
  exact ⟨hstart, h.1⟩

/-! ## Claim C5: type assignment and fallback in session batches -/

namespace Questions

/-- Inserting under the random comparator permutes. -/
theorem rsInsert_perm {α : Type} (a : α) :
    ∀ (l : List α) (e : Env), (rsInsert a l e).1.Perm (a :: l) := by
  intro l
  induction l with
  | nil => intro e; exact List.Perm.refl _
  | cons b bs ih =>
    intro e
    simp only [rsInsert]
    split
    · exact List.Perm.refl _
    · exact ((ih _).cons b).trans (List.Perm.swap a b bs)

/-- The random-comparator sort returns a permutation of its input. -/
theorem randSort_perm {α : Type} :
    ∀ (l : List α) (e : Env), (randSort l e).1.Perm l := by
  intro l
  induction l with
  | nil => intro e; exact List.Perm.refl _
  | cons a as ih =>
    intro e
    simp only [randSort]
    exact (rsInsert_perm a _ _).trans ((ih _).cons a)

/-- Question `j` of the generation loop is generated from word `j` with
preferred type `tys[(i + j) % tys.length]` (at the random-stream state
reached by then). -/
theorem genLoop_get (a : List VocabularyWord) (tys : List QuestionType) :
    ∀ (ws : List VocabularyWord) (i j : Nat) (e : Env) (w : VocabularyWord),
      ws.get? j = some w →
      ∃ e', (genLoop a tys ws i e).1.get? j =
        some (generateQuestion w a (tys.get? ((i + j) % tys.length)) e').1 := by
  intro ws
  induction ws with
  | nil => intro i j e w h; cases h
  | cons w0 rest ih =>
    intro i j e w h
    cases j with
    | zero =>
      simp only [List.get?] at h
      cases h
      refine ⟨e, ?_⟩
      simp [genLoop]
    | succ j' =>
      simp only [List.get?] at h
      obtain ⟨e', he'⟩ := ih (i + 1) j'
        (generateQuestion w0 a (tys.get? (i % tys.length)) e).2 w h
      refine ⟨e', ?_⟩
      have harith : i + 1 + j' = i + (j' + 1) := by omega
      simp only [genLoop, List.get?]
      rw [he', harith]

/-- With the gap-fill types unavailable, an unavailable preferred gap-fill
type makes `generateQuestion` pick the type at the random index
`⌊r·4⌋` among the four remaining types — not a designated secondary. -/
theorem generateQuestion_fallback_random (word : VocabularyWord)
    (allWords : List VocabularyWord) (e : Env)
    (h : testWholeWord word.example_en (jsToLower word.vocabulary) = false)
    (h0 : 0 ≤ e.rand e.idx) (h1 : e.rand e.idx < 1) :
    (generateQuestion word allWords (some .gap_fill_text) e).1.type =
      [QuestionType.context_meaning, QuestionType.simple_meaning,
        QuestionType.dictation, QuestionType.translation].getD
        (Int.toNat (Int.floor (e.rand e.idx * 4))) .simple_meaning ∧
    (generateQuestion word allWords (some .gap_fill_audio) e).1.type =
      [QuestionType.context_meaning, QuestionType.simple_meaning,
        QuestionType.dictation, QuestionType.translation].getD
        (Int.toNat (Int.floor (e.rand e.idx * 4))) .simple_meaning := by
  have hg1 := generateGapFillText_none word allWords e h
  have hg2 := generateGapFillAudio_none word allWords e h
  have hge : (generateGapFillText word allWords e).2 = e := by rw [hg1]
  have hfl : Int.floor (e.rand e.idx * (4:ℚ)) < 4 := by
    have : e.rand e.idx * (4:ℚ) < 4 := by linarith
    exact Int.floor_lt.mpr (by exact_mod_cast this)
  have hf0 : 0 ≤ Int.floor (e.rand e.idx * (4:ℚ)) :=
    Int.floor_nonneg.mpr (by positivity)
  have hk : (Int.floor (e.rand e.idx * (4:ℚ))).toNat < 4 := by omega
  have hlen4 : [QuestionType.context_meaning, QuestionType.simple_meaning,
      QuestionType.dictation, QuestionType.translation].length = 4 := rfl
  have hcontains : ([QuestionType.context_meaning, QuestionType.simple_meaning,
      QuestionType.dictation, QuestionType.translation].contains
        QuestionType.gap_fill_text) = false := by decide
  have hcontains2 : ([QuestionType.context_meaning, QuestionType.simple_meaning,
      QuestionType.dictation, QuestionType.translation].contains
        QuestionType.gap_fill_audio) = false := by decide
  obtain ⟨k, hkeq, hklt⟩ :
      ∃ k, (Int.floor (e.rand e.idx * (4:ℚ))).toNat = k ∧ k < 4 := ⟨_, rfl, hk⟩
  constructor <;>
  · simp only [generateQuestion, hg1, hge, hg2, Option.isSome_none,
      Bool.false_eq_true, if_false, List.nil_append, pickRandomType, Env.next,
      hcontains, hcontains2, hlen4]
    rw [if_pos (by exact_mod_cast hf0), hkeq]
    interval_cases k <;>
      simp [hkeq, generateContextMeaning_type, generateSimpleMeaning_type,
        generateDictation_type, generateTranslation_type]

end Questions

/-- A concrete item whose term "cat" does not occur in its example. -/
def noMatchWord : VocabularyWord :=
  { sampleWord with id := "c1", vocabulary := "cat", example_en := "No animal here." }

/-- Claim C5 counterexample. For `noMatchWord` (gap-fill unavailable) with
preferred type gap-fill-text and the constant random stream 1/2, the chosen
fallback is dictation (`⌊0.5·4⌋ = 2`), not the claimed designated secondary
simple-meaning; the same happens inside `generateSessionQuestions`, where the
constant stream leaves the type array in order with gap-fill-text first. -/
theorem generateSessionQuestions_fallback_counterexample :
    Questions.testWholeWord noMatchWord.example_en
      (Questions.jsToLower noMatchWord.vocabulary) = false ∧
    (Questions.generateQuestion noMatchWord [noMatchWord]
      (some .gap_fill_text) envHalf).1.type = .dictation ∧
    ((Questions.randSort Questions.allTypes envHalf).1.get? 0 =
      some .gap_fill_text) ∧
    ((Questions.generateSessionQuestions [noMatchWord] [noMatchWord]
      envHalf).1.map (fun q => q.type)) = [.dictation] ∧
    QuestionType.dictation ≠ QuestionType.simple_meaning := by
  refine ⟨by decide, by with_unfolding_all decide, by with_unfolding_all decide,
    by with_unfolding_all decide, by decide⟩

/-- Claim C5, amended. `generateSessionQuestions` builds a shuffled
permutation of the six question types and assigns `types[i % 6]` as the
preferred type for item `i`; but when that preferred type is unavailable for
the item, the selected type is drawn at the random index `⌊r·4⌋` from the
item's available types (uniform over the four non-gap types), not the
designated secondary — the gap-fill-text → simple-meaning and
gap-fill-audio → dictation fallback expressions in the dispatch are
unreachable. -/
theorem generateSessionQuestions_types_spec
    (words allWords : List VocabularyWord) (e : Env) (j : Nat)
    (w : VocabularyWord) (hw : words.get? j = some w)
    (word2 : VocabularyWord) (allWords2 : List VocabularyWord) (e2 : Env)
    (h : Questions.testWholeWord word2.example_en
      (Questions.jsToLower word2.vocabulary) = false)
    (h0 : 0 ≤ e2.rand e2.idx) (h1 : e2.rand e2.idx < 1) :
    (Questions.randSort Questions.allTypes e).1.Perm Questions.allTypes ∧
    (Questions.randSort Questions.allTypes e).1.length = 6 ∧
    (∃ e', (Questions.generateSessionQuestions words allWords e).1.get? j =
      some (Questions.generateQuestion w allWords
        ((Questions.randSort Questions.allTypes e).1.get? (j % 6)) e').1) ∧
    (Questions.generateQuestion word2 allWords2 (some .gap_fill_text) e2).1.type =
      [QuestionType.context_meaning, QuestionType.simple_meaning,
        QuestionType.dictation, QuestionType.translation].getD
        (Int.toNat (Int.floor (e2.rand e2.idx * 4))) .simple_meaning := by
  have hperm := Questions.randSort_perm Questions.allTypes e
  have hlen : (Questions.randSort Questions.allTypes e).1.length = 6 := by
    rw [hperm.length_eq]
    rfl
  refine ⟨hperm, hlen, ?_,
    (Questions.generateQuestion_fallback_random word2 allWords2 e2 h h0 h1).1⟩
  have hne : words.length ≠ 0 := by
    intro hz
    rw [List.length_eq_zero] at hz
    subst hz
    cases hw
  obtain ⟨e', he'⟩ := Questions.genLoop_get allWords
    (Questions.randSort Questions.allTypes e).1 words 0 j
    (Questions.randSort Questions.allTypes e).2 w hw
  refine ⟨e', ?_⟩
  simp only [Questions.generateSessionQuestions, if_neg hne]
  rw [he', hlen]
  simp

/-- Witness for C5's amended theorem at a one-item batch and the constant
stream 1/2. -/
theorem generateSessionQuestions_types_spec_witness :
    (([noMatchWord].get? 0 = some noMatchWord) ∧
      Questions.testWholeWord noMatchWord.example_en
        (Questions.jsToLower noMatchWord.vocabulary) = false ∧
      (0:ℚ) ≤ envHalf.rand envHalf.idx ∧ envHalf.rand envHalf.idx < 1) ∧
    ((Questions.randSort Questions.allTypes envHalf).1.Perm Questions.allTypes ∧
     (∃ e', (Questions.generateSessionQuestions [noMatchWord] [noMatchWord]
        envHalf).1.get? 0 =
        some (Questions.generateQuestion noMatchWord [noMatchWord]
          ((Questions.randSort Questions.allTypes envHalf).1.get? (0 % 6)) e').1)) := by
  have h := generateSessionQuestions_types_spec [noMatchWord] [noMatchWord]
    envHalf 0 noMatchWord rfl noMatchWord [noMatchWord] envHalf
    (by decide) (by norm_num [envHalf]) (by norm_num [envHalf])
  exact ⟨⟨rfl, by decide, by norm_num [envHalf], by norm_num [envHalf]⟩,
    h.1, h.2.2.1⟩

/-! ## Claim C6: option-set invariants -/

namespace Questions

/-- Invariants of the distractor collection loop: starting from a
duplicate-free accumulator not containing the canonical answer, the result
stays duplicate-free, never contains the canonical answer, never exceeds
`count` entries (beyond what the accumulator already had), and only adds
values of `f` over the candidate list. -/
theorem collectBy_props (f : VocabularyWord → String) (canonical : String)
    (count : Nat) :
    ∀ (ws : List VocabularyWord) (acc : List String),
      acc.Nodup → canonical ∉ acc →
      ((collectBy f canonical count ws acc).Nodup ∧
       canonical ∉ collectBy f canonical count ws acc ∧
       acc.length ≤ (collectBy f canonical count ws acc).length ∧
       (collectBy f canonical count ws acc).length ≤ max acc.length count ∧
       ∀ x ∈ collectBy f canonical count ws acc,
         x ∈ acc ∨ ∃ w, w ∈ ws ∧ f w = x) := by
  intro ws
  induction ws with
  | nil =>
    intro acc hnd hnc
    refine ⟨hnd, hnc, le_refl _, le_max_left _ _, fun x hx => Or.inl hx⟩
  | cons w ws ih =>
    intro acc hnd hnc
    by_cases hstop : count ≤ acc.length
    · rw [collectBy, if_pos hstop]
      refine ⟨hnd, hnc, le_refl _, le_max_left _ _, fun x hx => Or.inl hx⟩
    · by_cases hkeep : (f w != canonical && !(acc.contains (f w))) = true
      · rw [collectBy, if_neg hstop, if_pos hkeep]
        have hne : f w ≠ canonical := by
          have := (Bool.and_eq_true _ _).mp hkeep |>.1
          exact bne_iff_ne.mp this
        have hnotin : f w ∉ acc := by
          have := (Bool.and_eq_true _ _).mp hkeep |>.2
          simpa using this
        have hnd' : (acc ++ [f w]).Nodup := by
          simp [List.nodup_append, hnd, hnotin]
        have hnc' : canonical ∉ acc ++ [f w] := by
          simp only [List.mem_append, List.mem_singleton]
          rintro (h | h)
          · exact hnc h
          · exact hne h.symm
        obtain ⟨h1, h2, h3, h4, h5⟩ := ih (acc ++ [f w]) hnd' hnc'
        refine ⟨h1, h2, ?_, ?_, ?_⟩
        · calc acc.length ≤ (acc ++ [f w]).length := by simp
            _ ≤ _ := h3
        · have hlt : acc.length < count := by omega
          have : (acc ++ [f w]).length ≤ count := by simp; omega
          have := h4
          omega
        · intro x hx
          rcases h5 x hx with hmem | ⟨w', hw', hfw'⟩
          · rcases List.mem_append.mp hmem with h | h
            · exact Or.inl h
            · exact Or.inr ⟨w, List.mem_cons_self _ _, (List.mem_singleton.mp h).symm⟩
          · exact Or.inr ⟨w', List.mem_cons_of_mem _ hw', hfw'⟩
      · rw [collectBy, if_neg hstop, if_neg hkeep]
        obtain ⟨h1, h2, h3, h4, h5⟩ := ih acc hnd hnc
        refine ⟨h1, h2, h3, h4, ?_⟩
        intro x hx
        rcases h5 x hx with h | ⟨w', hw', hfw'⟩
        · exact Or.inl h
        · exact Or.inr ⟨w', List.mem_cons_of_mem _ hw', hfw'⟩

theorem padPlaceholders_nil (pfx : String) :
    padPlaceholders pfx 3 [] = [pfx ++ "1", pfx ++ "2", pfx ++ "3"] := by
  with_unfolding_all rfl

theorem padPlaceholders_one (pfx a : String) :
    padPlaceholders pfx 3 [a] = [a, pfx ++ "2", pfx ++ "3"] := by
  with_unfolding_all rfl

theorem padPlaceholders_two (pfx a b : String) :
    padPlaceholders pfx 3 [a, b] = [a, b, pfx ++ "3"] := by
  with_unfolding_all rfl

theorem padPlaceholders_three (pfx a b c : String) :
    padPlaceholders pfx 3 [a, b, c] = [a, b, c] := rfl

/-- The padded distractor list for `count = 3`: exactly 3 entries, no
duplicates, no canonical answer — provided neither the canonical answer nor
any collected value collides with the three placeholder strings. -/
theorem padded_distractors_spec (pfx canonical : String) (dl : List String)
    (hnd : dl.Nodup) (hnc : canonical ∉ dl) (hlen : dl.length ≤ 3)
    (hph : ∀ x ∈ dl, x ∉ [pfx ++ "1", pfx ++ "2", pfx ++ "3"])
    (hcph : canonical ∉ [pfx ++ "1", pfx ++ "2", pfx ++ "3"])
    (hpfx : (pfx ++ "1") ≠ (pfx ++ "2") ∧ (pfx ++ "1") ≠ (pfx ++ "3") ∧
      (pfx ++ "2") ≠ (pfx ++ "3")) :
    (padPlaceholders pfx 3 dl).length = 3 ∧
    (padPlaceholders pfx 3 dl).Nodup ∧
    canonical ∉ padPlaceholders pfx 3 dl := by
  obtain ⟨hp12, hp13, hp23⟩ := hpfx
  simp only [List.mem_cons, List.not_mem_nil, or_false, not_or] at hcph
  rcases dl with _ | ⟨a, _ | ⟨b, _ | ⟨c, _ | ⟨d, tl⟩⟩⟩⟩
  · rw [padPlaceholders_nil]
    refine ⟨rfl, ?_, ?_⟩ <;>
      (simp only [List.nodup_cons, List.mem_cons, List.not_mem_nil,
        List.mem_singleton, List.nodup_nil, or_false, not_or, and_true] <;>
       tauto)
  · rw [padPlaceholders_one]
    have ha := hph a (by simp)
    simp only [List.mem_cons, List.not_mem_nil, or_false, not_or] at ha hnc
    refine ⟨rfl, ?_, ?_⟩ <;>
      (simp only [List.nodup_cons, List.mem_cons, List.not_mem_nil,
        List.mem_singleton, List.nodup_nil, or_false, not_or, and_true] <;>
       tauto)
  · rw [padPlaceholders_two]
    have ha := hph a (by simp)
    have hb := hph b (by simp)
    have hab : a ≠ b := by
      intro h
      simp [h] at hnd
    simp only [List.mem_cons, List.not_mem_nil, or_false, not_or] at ha hb hnc
    refine ⟨rfl, ?_, ?_⟩ <;>
      (simp only [List.nodup_cons, List.mem_cons, List.not_mem_nil,
        List.mem_singleton, List.nodup_nil, or_false, not_or, and_true] <;>
       tauto)
  · rw [padPlaceholders_three]
    exact ⟨rfl, hnd, hnc⟩
  · exfalso
    simp only [List.length_cons] at hlen
    omega

end Questions

namespace Questions

/-- String facts letting the generic placeholder lemma apply at
`pfx = "word"` and `pfx = "meaning "`. -/
theorem word_placeholder_append :
    (("word" : String) ++ "1" = "word1") ∧ (("word" : String) ++ "2" = "word2") ∧
    (("word" : String) ++ "3" = "word3") ∧
    (("meaning " : String) ++ "1" = "meaning 1") ∧
    (("meaning " : String) ++ "2" = "meaning 2") ∧
    (("meaning " : String) ++ "3" = "meaning 3") := by
  refine ⟨rfl, rfl, rfl, rfl, rfl, rfl⟩

/-- The vocabulary distractor list: 3 entries, duplicate-free, canonical
answer absent — provided neither the item's term nor any corpus term is one
of the synthetic placeholders. -/
theorem getDistractorWords_spec (word : VocabularyWord)
    (allWords : List VocabularyWord) (e : Env)
    (hW : word.vocabulary ∉ ["word1", "word2", "word3"])
    (hWc : ∀ w ∈ allWords, w.vocabulary ∉ ["word1", "word2", "word3"]) :
    (getDistractorWords word allWords 3 e).1.length = 3 ∧
    (getDistractorWords word allWords 3 e).1.Nodup ∧
    word.vocabulary ∉ (getDistractorWords word allWords 3 e).1 := by
  obtain ⟨ha1, ha2, ha3, ha4, ha5, ha6⟩ := word_placeholder_append
  simp only [getDistractorWords]
  obtain ⟨h1, h2, h3, h4, h5⟩ := collectBy_props (fun w => w.vocabulary)
    word.vocabulary 3
    ((randSort ((allWords.filter (fun w => w.id != word.id && w.topic == word.topic)) ++
      (allWords.filter (fun w => w.id != word.id && w.topic != word.topic))) e).1)
    [] List.nodup_nil (List.not_mem_nil _)
  have hsub : ∀ w ∈ (randSort
      ((allWords.filter (fun w => w.id != word.id && w.topic == word.topic)) ++
        (allWords.filter (fun w => w.id != word.id && w.topic != word.topic))) e).1,
      w ∈ allWords := by
    intro w hw
    have hmem := (randSort_perm _ e).mem_iff.mp hw
    rcases List.mem_append.mp hmem with h | h
    · exact (List.mem_filter.mp h).1
    · exact (List.mem_filter.mp h).1
  have := padded_distractors_spec "word" word.vocabulary _ h1 h2
    (by simpa using h4)
    (by
      intro x hx
      rcases h5 x hx with h | ⟨w, hw, hfw⟩
      · cases h
      · rw [ha1, ha2, ha3, ← hfw]
        exact hWc w (hsub w hw))
    (by rw [ha1, ha2, ha3]; exact hW)
    (by rw [ha1, ha2, ha3]; exact ⟨by decide, by decide, by decide⟩)
  exact this

/-- The meaning distractor list: same invariants with the
`"meaning N"` placeholders. -/
theorem getDistractorMeanings_spec (word : VocabularyWord)
    (allWords : List VocabularyWord) (e : Env)
    (hM : word.meaning_vi ∉ ["meaning 1", "meaning 2", "meaning 3"])
    (hMc : ∀ w ∈ allWords, w.meaning_vi ∉ ["meaning 1", "meaning 2", "meaning 3"]) :
    (getDistractorMeanings word allWords 3 e).1.length = 3 ∧
    (getDistractorMeanings word allWords 3 e).1.Nodup ∧
    word.meaning_vi ∉ (getDistractorMeanings word allWords 3 e).1 := by
  obtain ⟨ha1, ha2, ha3, ha4, ha5, ha6⟩ := word_placeholder_append
  simp only [getDistractorMeanings]
  obtain ⟨h1, h2, h3, h4, h5⟩ := collectBy_props (fun w => w.meaning_vi)
    word.meaning_vi 3
    ((randSort ((allWords.filter (fun w => w.id != word.id && w.topic == word.topic)) ++
      (allWords.filter (fun w => w.id != word.id && w.topic != word.topic))) e).1)
    [] List.nodup_nil (List.not_mem_nil _)
  have hsub : ∀ w ∈ (randSort
      ((allWords.filter (fun w => w.id != word.id && w.topic == word.topic)) ++
        (allWords.filter (fun w => w.id != word.id && w.topic != word.topic))) e).1,
      w ∈ allWords := by
    intro w hw
    have hmem := (randSort_perm _ e).mem_iff.mp hw
    rcases List.mem_append.mp hmem with h | h
    · exact (List.mem_filter.mp h).1
    · exact (List.mem_filter.mp h).1
  have := padded_distractors_spec "meaning " word.meaning_vi _ h1 h2
    (by simpa using h4)
    (by
      intro x hx
      rcases h5 x hx with h | ⟨w, hw, hfw⟩
      · cases h
      · rw [ha4, ha5, ha6, ← hfw]
        exact hMc w (hsub w hw))
    (by rw [ha4, ha5, ha6]; exact hM)
    (by rw [ha4, ha5, ha6]; exact ⟨by decide, by decide, by decide⟩)
  exact this

/-- Shuffling the canonical answer into a well-formed distractor list yields
exactly 4 options containing the canonical answer exactly once and no
duplicates. -/
theorem optionsSpec (canonical : String) (d : List String) (e : Env)
    (h3 : d.length = 3) (hnd : d.Nodup) (hnc : canonical ∉ d) :
    (randSort (canonical :: d) e).1.length = 4 ∧
    (randSort (canonical :: d) e).1.count canonical = 1 ∧
    (randSort (canonical :: d) e).1.Nodup := by
  have hperm := randSort_perm (canonical :: d) e
  refine ⟨?_, ?_, ?_⟩
  · rw [hperm.length_eq]
    simp [h3]
  · rw [hperm.count_eq]
    simp [List.count_cons_self, List.count_eq_zero.mpr hnc]
  · exact hperm.symm.nodup (List.nodup_cons.mpr ⟨hnc, hnd⟩)

end Questions

namespace Questions

theorem generateDictation_options (w : VocabularyWord) (e : Env) :
    (generateDictation w e).1.options = none := rfl

theorem generateTranslation_options (w : VocabularyWord) (e : Env) :
    (generateTranslation w e).1.options = none := rfl

/-- The simple-meaning options invariant. -/
theorem generateSimpleMeaning_options (w : VocabularyWord)
    (a : List VocabularyWord) (e : Env)
    (hM : w.meaning_vi ∉ ["meaning 1", "meaning 2", "meaning 3"])
    (hMc : ∀ v ∈ a, v.meaning_vi ∉ ["meaning 1", "meaning 2", "meaning 3"]) :
    ∀ opts, (generateSimpleMeaning w a e).1.options = some opts →
      opts.length = 4 ∧
      opts.count ((generateSimpleMeaning w a e).1.correctAnswer) = 1 ∧
      opts.Nodup := by
  intro opts hopts
  obtain ⟨g1, g2, g3⟩ := getDistractorMeanings_spec w a e hM hMc
  obtain ⟨o1, o2, o3⟩ := optionsSpec w.meaning_vi
    (getDistractorMeanings w a 3 e).1 (getDistractorMeanings w a 3 e).2 g1 g2 g3
  have heq : opts = (randSort (w.meaning_vi :: (getDistractorMeanings w a 3 e).1)
      (getDistractorMeanings w a 3 e).2).1 :=
    (Option.some.inj hopts.symm)
  subst heq
  exact ⟨o1, o2, o3⟩

/-- The context-meaning options invariant. -/
theorem generateContextMeaning_options (w : VocabularyWord)
    (a : List VocabularyWord) (e : Env)
    (hM : w.meaning_vi ∉ ["meaning 1", "meaning 2", "meaning 3"])
    (hMc : ∀ v ∈ a, v.meaning_vi ∉ ["meaning 1", "meaning 2", "meaning 3"]) :
    ∀ opts, (generateContextMeaning w a e).1.options = some opts →
      opts.length = 4 ∧
      opts.count ((generateContextMeaning w a e).1.correctAnswer) = 1 ∧
      opts.Nodup := by
  intro opts hopts
  obtain ⟨g1, g2, g3⟩ := getDistractorMeanings_spec w a e hM hMc
  obtain ⟨o1, o2, o3⟩ := optionsSpec w.meaning_vi
    (getDistractorMeanings w a 3 e).1 (getDistractorMeanings w a 3 e).2 g1 g2 g3
  have heq : opts = (randSort (w.meaning_vi :: (getDistractorMeanings w a 3 e).1)
      (getDistractorMeanings w a 3 e).2).1 :=
    (Option.some.inj hopts.symm)
  subst heq
  exact ⟨o1, o2, o3⟩

/-- The gap-fill-text options invariant (for the question it produces). -/
theorem generateGapFillText_options (w : VocabularyWord)
    (a : List VocabularyWord) (e : Env) (q : StudyQuestion)
    (h : (generateGapFillText w a e).1 = some q)
    (hW : w.vocabulary ∉ ["word1", "word2", "word3"])
    (hWc : ∀ v ∈ a, v.vocabulary ∉ ["word1", "word2", "word3"]) :
    ∀ opts, q.options = some opts →
      opts.length = 4 ∧ opts.count q.correctAnswer = 1 ∧ opts.Nodup := by
  by_cases ht : testWholeWord w.example_en (jsToLower w.vocabulary)
  · simp only [generateGapFillText, ht, if_true] at h
    cases h
    intro opts hopts
    obtain ⟨g1, g2, g3⟩ := getDistractorWords_spec w a e hW hWc
    obtain ⟨o1, o2, o3⟩ := optionsSpec w.vocabulary
      (getDistractorWords w a 3 e).1 (getDistractorWords w a 3 e).2 g1 g2 g3
    have heq : opts = (randSort (w.vocabulary :: (getDistractorWords w a 3 e).1)
        (getDistractorWords w a 3 e).2).1 :=
      (Option.some.inj hopts.symm)
    subst heq
    exact ⟨o1, o2, o3⟩
  · rw [generateGapFillText_none w a e (by simpa using ht)] at h
    cases h

/-- The gap-fill-audio options invariant. -/
theorem generateGapFillAudio_options (w : VocabularyWord)
    (a : List VocabularyWord) (e : Env) (q : StudyQuestion)
    (h : (generateGapFillAudio w a e).1 = some q)
    (hW : w.vocabulary ∉ ["word1", "word2", "word3"])
    (hWc : ∀ v ∈ a, v.vocabulary ∉ ["word1", "word2", "word3"]) :
    ∀ opts, q.options = some opts →
      opts.length = 4 ∧ opts.count q.correctAnswer = 1 ∧ opts.Nodup := by
  by_cases ht : testWholeWord w.example_en (jsToLower w.vocabulary)
  · simp only [generateGapFillAudio, ht, if_true] at h
    cases h
    intro opts hopts
    obtain ⟨g1, g2, g3⟩ := getDistractorWords_spec w a e hW hWc
    obtain ⟨o1, o2, o3⟩ := optionsSpec w.vocabulary
      (getDistractorWords w a 3 e).1 (getDistractorWords w a 3 e).2 g1 g2 g3
    have heq : opts = (randSort (w.vocabulary :: (getDistractorWords w a 3 e).1)
        (getDistractorWords w a 3 e).2).1 :=
      (Option.some.inj hopts.symm)
    subst heq
    exact ⟨o1, o2, o3⟩
  · rw [generateGapFillAudio_none w a e (by simpa using ht)] at h
    cases h

end Questions

/-- Claim C6, amended. Every generated question that carries an option set
has exactly 4 options, contains the canonical answer exactly once, and has
no duplicates — provided the canonical answers involved do not themselves
collide with the synthetic padding placeholders (`"word1".."word3"` for term
options, `"meaning 1".."meaning 3"` for meaning options); when the corpus is
too small the placeholders keep the option count at exactly 4, so generation
never fails. -/
theorem generateQuestion_options_invariant (word : VocabularyWord)
    (allWords : List VocabularyWord) (pref : Option QuestionType) (e : Env)
    (hW : word.vocabulary ∉ ["word1", "word2", "word3"])
    (hWc : ∀ w ∈ allWords, w.vocabulary ∉ ["word1", "word2", "word3"])
    (hM : word.meaning_vi ∉ ["meaning 1", "meaning 2", "meaning 3"])
    (hMc : ∀ w ∈ allWords, w.meaning_vi ∉ ["meaning 1", "meaning 2", "meaning 3"]) :
    ∀ opts, (Questions.generateQuestion word allWords pref e).1.options = some opts →
      opts.length = 4 ∧
      opts.count ((Questions.generateQuestion word allWords pref e).1.correctAnswer) = 1 ∧
      opts.Nodup := by
  simp only [Questions.generateQuestion]
  rcases hg1 : (Questions.generateGapFillText word allWords e).1 with _ | q1 <;>
    rcases hg2 : (Questions.generateGapFillAudio word allWords
      (Questions.generateGapFillText word allWords e).2).1 with _ | q2 <;>
      simp only [hg1, hg2] <;>
        split <;>
          first
            | exact Questions.generateSimpleMeaning_options word allWords _ hM hMc
            | exact Questions.generateContextMeaning_options word allWords _ hM hMc
            | exact Questions.generateGapFillText_options word allWords e q1 hg1 hW hWc
            | exact Questions.generateGapFillAudio_options word allWords
                (Questions.generateGapFillText word allWords e).2 q2 hg2 hW hWc
            | (intro opts hopts; cases hopts)

/-- Witness for C6's amended theorem: a simple-meaning question over a
one-item corpus pads with the three meaning placeholders and still satisfies
the invariant. -/
theorem generateQuestion_options_invariant_witness :
    (sampleWord.vocabulary ∉ ["word1", "word2", "word3"] ∧
     sampleWord.meaning_vi ∉ ["meaning 1", "meaning 2", "meaning 3"]) ∧
    ((Questions.generateQuestion sampleWord [sampleWord]
        (some .simple_meaning) envHalf).1.options =
      some ["chay", "meaning 1", "meaning 2", "meaning 3"]) ∧
    (["chay", "meaning 1", "meaning 2", "meaning 3"].length = 4 ∧
     ["chay", "meaning 1", "meaning 2", "meaning 3"].count
       ((Questions.generateQuestion sampleWord [sampleWord]
         (some .simple_meaning) envHalf).1.correctAnswer) = 1 ∧
     ["chay", "meaning 1", "meaning 2", "meaning 3"].Nodup) := by
  have hopts : (Questions.generateQuestion sampleWord [sampleWord]
      (some .simple_meaning) envHalf).1.options =
      some ["chay", "meaning 1", "meaning 2", "meaning 3"] := by
    with_unfolding_all decide
  have h := generateQuestion_options_invariant sampleWord [sampleWord]
    (some .simple_meaning) envHalf (by decide) (by decide) (by decide) (by decide)
    ["chay", "meaning 1", "meaning 2", "meaning 3"] hopts
  exact ⟨⟨by decide, by decide⟩, hopts, h⟩

/-- A concrete item whose term is literally the first padding placeholder. -/
def placeholderWord : VocabularyWord :=
  { sampleWord with
    id := "p1"
    vocabulary := "word1"
    example_en := "I said word1 twice." }

/-- Claim C6 counterexample. For an item whose term is the string "word1" and
whose corpus offers no distractors, the gap-fill padding emits "word1"
again: the option set contains the canonical answer twice and has a
duplicate, violating the claim's unconditional invariant. -/
theorem generateQuestion_options_counterexample :
    ((Questions.generateQuestion placeholderWord [placeholderWord]
        (some .gap_fill_text) envHalf).1.options =
      some ["word1", "word1", "word2", "word3"]) ∧
    ((Questions.generateQuestion placeholderWord [placeholderWord]
        (some .gap_fill_text) envHalf).1.correctAnswer = "word1") ∧
    (["word1", "word1", "word2", "word3"].count "word1" = 2) ∧
    ¬ (["word1", "word1", "word2", "word3"].Nodup) := by
  refine ⟨by with_unfolding_all decide, by with_unfolding_all decide,
    by decide, by decide⟩

/-! ## Session state machine

Two coexisting variants of the study-session hook are in the sources: the
one in `src/src/hooks/useStudySession.ts` keys its answer map by **word id**
and always returns the freshly computed correctness (`StudySessionHook`
below), while the one embedded in `src/src/hooks/useVocabulary.ts` keys by
**question id**, stores full `AnswerRecord`s and returns the recorded
correctness on a duplicate submission (`VocabSessionHook` below).  JS `Map`s
are modelled as insertion-ordered association lists; each transition also
returns the list of `onWordReviewed(wordId, isCorrect, difficulty)`
collaborator invocations it performs. -/

/-- JS `Map.get` on an insertion-ordered association list. -/
def mapGet {α : Type} (m : List (String × α)) (k : String) : Option α :=
  (m.find? (fun p => p.1 == k)).map (fun p => p.2)

/-- A collaborator invocation `onWordReviewed(wordId, isCorrect, difficulty)`. -/
structure ReviewCall where
  wordId : String
  isCorrect : Bool
  difficulty : DifficultyRating
deriving DecidableEq, Repr

namespace StudySessionHook

/-- The mutable pieces of `useStudySession` (`useStudySession.ts`) that
`submitAnswer`/`skipQuestion` touch. -/
structure SessionState where
  questions : List StudyQuestion
  currentIndex : Nat
  answers : List (String × (Bool × DifficultyRating))
  answeredCount : Nat
  correctCount : Nat
deriving DecidableEq, Repr

/-- Model of `submitAnswer` (`useStudySession.ts` lines 73–95): keyed by the current
question's word id; computes correctness from the submitted answer, records
it and invokes the collaborator only when the word id is new, and returns
the freshly computed correctness either way. -/
def submitAnswer (st : SessionState) (userAnswer : String)
    (difficulty : DifficultyRating) :
    SessionState × Bool × List ReviewCall :=
  match st.questions.get? st.currentIndex with
  | none => (st, false, [])
  | some q =>
    let wordId := q.word.id
    let isCorrect := Questions.checkAnswer userAnswer q.correctAnswer
    if (mapGet st.answers wordId).isSome then (st, isCorrect, [])
    else
      ({ st with
          answers := st.answers ++ [(wordId, (isCorrect, difficulty))]
          answeredCount := st.answeredCount + 1
          correctCount := if isCorrect then st.correctCount + 1 else st.correctCount },
        isCorrect, [⟨wordId, isCorrect, difficulty⟩])

/-- Model of `skipQuestion` (`useStudySession.ts`): records an incorrect "hard"
answer for the current word if it has none. -/
def skipQuestion (st : SessionState) : SessionState × List ReviewCall :=
  match st.questions.get? st.currentIndex with
  | none => (st, [])
  | some q =>
    let wordId := q.word.id
    if (mapGet st.answers wordId).isSome then (st, [])
    else
      ({ st with
          answers := st.answers ++ [(wordId, (false, DifficultyRating.hard))]
          answeredCount := st.answeredCount + 1 },
        [⟨wordId, false, DifficultyRating.hard⟩])

end StudySessionHook

namespace VocabSessionHook

/-- Model of `AnswerRecord` (`useVocabulary.ts` session hook). -/
structure AnswerRecord where
  questionId : String
  wordId : String
  userAnswer : String
  correctAnswer : String
  isCorrect : Bool
  difficulty : DifficultyRating
  timestamp : ℚ
deriving DecidableEq, Repr

/-- Model of `SessionResult` (`useVocabulary.ts` session hook). -/
structure SessionResult where
  totalQuestions : Nat
  correctAnswers : Nat
  accuracy : ℚ
  wordsLeveledUp : List VocabularyWord
  wordsLeveledDown : List VocabularyWord
  incorrectWords : List VocabularyWord
  duration : ℚ
deriving Repr

/-- The session state of the hook in `useVocabulary.ts`: answers are keyed
by question id. -/
structure SessionState where
  sessionWords : List VocabularyWord
  questions : List StudyQuestion
  currentIndex : Nat
  startTime : Option ℚ
  answers : List (String × AnswerRecord)
  answeredCount : Nat
  correctCount : Nat
  prevLevels : List (String × Int)
deriving DecidableEq, Repr

/-- Model of `submitAnswer` (`useVocabulary.ts` lines 453–493): keyed by question id;
a duplicate submission returns the recorded correctness and does nothing
else. -/
def submitAnswer (st : SessionState) (userAnswer : String)
    (difficulty : DifficultyRating) (now : ℚ) :
    SessionState × Bool × List ReviewCall :=
  match st.questions.get? st.currentIndex with
  | none => (st, false, [])
  | some q =>
    let questionId := q.id
    let wordId := q.word.id
    match mapGet st.answers questionId with
    | some record => (st, record.isCorrect, [])
    | none =>
      let isCorrect := Questions.checkAnswer userAnswer q.correctAnswer
      let record : AnswerRecord :=
        ⟨questionId, wordId, userAnswer, q.correctAnswer, isCorrect, difficulty, now⟩
      ({ st with
          answers := st.answers ++ [(questionId, record)]
          answeredCount := st.answeredCount + 1
          correctCount := if isCorrect then st.correctCount + 1 else st.correctCount },
        isCorrect, [⟨wordId, isCorrect, difficulty⟩])

/-- Model of `skipQuestion` (`useVocabulary.ts` lines 495–522). -/
def skipQuestion (st : SessionState) (now : ℚ) :
    SessionState × List ReviewCall :=
  match st.questions.get? st.currentIndex with
  | none => (st, [])
  | some q =>
    let questionId := q.id
    let wordId := q.word.id
    if (mapGet st.answers questionId).isSome then (st, [])
    else
      let record : AnswerRecord :=
        ⟨questionId, wordId, "", q.correctAnswer, false, DifficultyRating.hard, now⟩
      ({ st with
          answers := st.answers ++ [(questionId, record)]
          answeredCount := st.answeredCount + 1 },
        [⟨wordId, false, DifficultyRating.hard⟩])

/-- JS `x || 1` on the stored previous level (`prevLevels.get(id) || 1`):
`undefined` and the falsy number 0 both give 1. -/
def jsOr1 : Option Int → Int
  | none => 1
  | some l => if l = 0 then 1 else l

/-- The `answersRef.current.forEach` accumulator loop of `calculateResult`
(`useVocabulary.ts` lines 544–566), over the records in insertion order.
The accumulator mirrors the mutable locals: total answered, total correct,
the three word lists and the processed-word-id set. -/
def resultFold (sessionWords : List VocabularyWord)
    (prevLevels : List (String × Int)) :
    List AnswerRecord →
    (Nat × Nat × List VocabularyWord × List VocabularyWord ×
      List VocabularyWord × List String) →
    (Nat × Nat × List VocabularyWord × List VocabularyWord ×
      List VocabularyWord × List String)
  | [], acc => acc
  | r :: rs, (ta, tc, up, down, inc, processed) =>
    let ta' := ta + 1
    let tc' := if r.isCorrect then tc + 1 else tc
    if processed.contains r.wordId then
      resultFold sessionWords prevLevels rs (ta', tc', up, down, inc, processed)
    else
      let processed' := r.wordId :: processed
      let prevLevel := jsOr1 (mapGet prevLevels r.wordId)
      match sessionWords.find? (fun w => w.id == r.wordId) with
      | some w =>
        if r.isCorrect ∧ prevLevel < 5 then
          resultFold sessionWords prevLevels rs
            (ta', tc', up ++ [w], down, inc, processed')
        else if ¬ r.isCorrect then
          resultFold sessionWords prevLevels rs
            (ta', tc', up, down ++ [w], inc ++ [w], processed')
        else
          resultFold sessionWords prevLevels rs (ta', tc', up, down, inc, processed')
      | none =>
        resultFold sessionWords prevLevels rs (ta', tc', up, down, inc, processed')

/-- Model of `calculateResult` (`useVocabulary.ts` lines 532–579). -/
def calculateResult (st : SessionState) (endTime : ℚ) : SessionResult :=
  let duration := match st.startTime with
    | some t0 => (endTime - t0) / 1000
    | none => 0
  let r := resultFold st.sessionWords st.prevLevels (st.answers.map (fun p => p.2))
    (0, 0, [], [], [], [])
  let totalAnswered := r.1
  let totalCorrect := r.2.1
  let accuracy : ℚ :=
    if 0 < totalAnswered then (totalCorrect : ℚ) / (totalAnswered : ℚ) * 100 else 0
  { totalQuestions := totalAnswered
    correctAnswers := totalCorrect
    accuracy := accuracy
    wordsLeveledUp := r.2.2.1
    wordsLeveledDown := r.2.2.2.1
    incorrectWords := r.2.2.2.2.1
    duration := duration }

end VocabSessionHook

/-! ## Claim C2: at-most-once answer recording -/

/-- Appending a fresh key to a JS map makes `get` find it. -/
theorem mapGet_append_of_none {α : Type} (m : List (String × α)) (k : String)
    (v : α) (h : mapGet m k = none) : mapGet (m ++ [(k, v)]) k = some v := by
  have hfind : m.find? (fun p => p.1 == k) = none := by
    simp only [mapGet, Option.map_eq_none'] at h
    exact h
  simp [mapGet, List.find?_append, hfind]

/-- A concrete question over `sampleWord` with canonical answer "run". -/
def sampleQuestion : StudyQuestion :=
  { id := "q1"
    word := sampleWord
    type := .translation
    question := "Type the English word for:"
    correctAnswer := "run"
    options := none
    clozeText := none
    underlinedText := none }

/-- A fresh one-question session state for the `useStudySession.ts` hook. -/
def sampleStateA : StudySessionHook.SessionState :=
  { questions := [sampleQuestion], currentIndex := 0, answers := [],
    answeredCount := 0, correctCount := 0 }

/-- Claim C2 counterexample. In the `useStudySession.ts` variant, a second
`submitAnswer` on the same (already answered) question performs no side
effects, but returns the correctness of its own arguments instead of the
existing recorded correctness: after answering "run" correctly, a second
call with "walk" returns `false` while the recorded correctness is `true`,
contradicting "any later submitAnswer on the same question (even with
different arguments) returns the existing recorded correctness
unchanged". -/
theorem submitAnswer_second_call_counterexample :
    ((StudySessionHook.submitAnswer sampleStateA "run" .good).2.1 = true) ∧
    (mapGet (StudySessionHook.submitAnswer sampleStateA "run" .good).1.answers
      "w1" = some (true, .good)) ∧
    ((StudySessionHook.submitAnswer
      (StudySessionHook.submitAnswer sampleStateA "run" .good).1
      "walk" .good).2.1 = false) ∧
    ((StudySessionHook.submitAnswer
      (StudySessionHook.submitAnswer sampleStateA "run" .good).1
      "walk" .good).1 =
      (StudySessionHook.submitAnswer sampleStateA "run" .good).1) ∧
    ((StudySessionHook.submitAnswer
      (StudySessionHook.submitAnswer sampleStateA "run" .good).1
      "walk" .good).2.2 = []) := by
  refine ⟨by with_unfolding_all decide, by with_unfolding_all decide,
    by with_unfolding_all decide, by with_unfolding_all decide,
    by with_unfolding_all decide⟩

/-- Claim C2, amended. For every session question: the first `submitAnswer`
(or `skipQuestion`) on it writes exactly one answer record and invokes the
external `onWordReviewed` collaborator exactly once; any later
`submitAnswer` on the same question (even with different arguments) does
not modify the state and does not invoke the collaborator again.  The
`useVocabulary.ts` variant (keyed by question id) returns the existing
recorded correctness on the later call; the `useStudySession.ts` variant
(keyed by word id) returns the correctness computed from the later call's
own arguments. -/
theorem submitAnswer_at_most_once
    (stA : StudySessionHook.SessionState) (qA : StudyQuestion)
    (hqA : stA.questions.get? stA.currentIndex = some qA)
    (hnewA : mapGet stA.answers qA.word.id = none)
    (stB : VocabSessionHook.SessionState) (qB : StudyQuestion)
    (hqB : stB.questions.get? stB.currentIndex = some qB)
    (hnewB : mapGet stB.answers qB.id = none)
    (u1 u2 : String) (d1 d2 : DifficultyRating) (t1 t2 : ℚ) :
    -- useStudySession.ts variant
    ((StudySessionHook.submitAnswer stA u1 d1).2.2 =
        [⟨qA.word.id, Questions.checkAnswer u1 qA.correctAnswer, d1⟩] ∧
      mapGet (StudySessionHook.submitAnswer stA u1 d1).1.answers qA.word.id =
        some (Questions.checkAnswer u1 qA.correctAnswer, d1) ∧
      (StudySessionHook.submitAnswer stA u1 d1).1.answeredCount =
        stA.answeredCount + 1 ∧
      (StudySessionHook.submitAnswer
          (StudySessionHook.submitAnswer stA u1 d1).1 u2 d2).1 =
        (StudySessionHook.submitAnswer stA u1 d1).1 ∧
      (StudySessionHook.submitAnswer
          (StudySessionHook.submitAnswer stA u1 d1).1 u2 d2).2.2 = [] ∧
      (StudySessionHook.submitAnswer
          (StudySessionHook.submitAnswer stA u1 d1).1 u2 d2).2.1 =
        Questions.checkAnswer u2 qA.correctAnswer) ∧
    -- useVocabulary.ts variant
    ((VocabSessionHook.submitAnswer stB u1 d1 t1).2.2 =
        [⟨qB.word.id, Questions.checkAnswer u1 qB.correctAnswer, d1⟩] ∧
      mapGet (VocabSessionHook.submitAnswer stB u1 d1 t1).1.answers qB.id =
        some ⟨qB.id, qB.word.id, u1, qB.correctAnswer,
          Questions.checkAnswer u1 qB.correctAnswer, d1, t1⟩ ∧
      (VocabSessionHook.submitAnswer stB u1 d1 t1).1.answeredCount =
        stB.answeredCount + 1 ∧
      (VocabSessionHook.submitAnswer
          (VocabSessionHook.submitAnswer stB u1 d1 t1).1 u2 d2 t2).1 =
        (VocabSessionHook.submitAnswer stB u1 d1 t1).1 ∧
      (VocabSessionHook.submitAnswer
          (VocabSessionHook.submitAnswer stB u1 d1 t1).1 u2 d2 t2).2.2 = [] ∧
      (VocabSessionHook.submitAnswer
          (VocabSessionHook.submitAnswer stB u1 d1 t1).1 u2 d2 t2).2.1 =
        Questions.checkAnswer u1 qB.correctAnswer) ∧
    -- skip first, then submit: same at-most-once guarantee
    ((VocabSessionHook.skipQuestion stB t1).2 =
        [⟨qB.word.id, false, DifficultyRating.hard⟩] ∧
      (VocabSessionHook.submitAnswer
          (VocabSessionHook.skipQuestion stB t1).1 u2 d2 t2).1 =
        (VocabSessionHook.skipQuestion stB t1).1 ∧
      (VocabSessionHook.submitAnswer
          (VocabSessionHook.skipQuestion stB t1).1 u2 d2 t2).2.2 = [] ∧
      (VocabSessionHook.submitAnswer
          (VocabSessionHook.skipQuestion stB t1).1 u2 d2 t2).2.1 = false) := by
  have hA1 : StudySessionHook.submitAnswer stA u1 d1 =
      ({ stA with
          answers := stA.answers ++
            [(qA.word.id, (Questions.checkAnswer u1 qA.correctAnswer, d1))]
          answeredCount := stA.answeredCount + 1
          correctCount := if Questions.checkAnswer u1 qA.correctAnswer then
            stA.correctCount + 1 else stA.correctCount },
        Questions.checkAnswer u1 qA.correctAnswer,
        [⟨qA.word.id, Questions.checkAnswer u1 qA.correctAnswer, d1⟩]) := by
    rw [StudySessionHook.submitAnswer, hqA]
    simp [hnewA]
  have hgetA : mapGet (stA.answers ++
      [(qA.word.id, (Questions.checkAnswer u1 qA.correctAnswer, d1))])
      qA.word.id = some (Questions.checkAnswer u1 qA.correctAnswer, d1) :=
    mapGet_append_of_none _ _ _ hnewA
  have hA2 : StudySessionHook.submitAnswer
      (StudySessionHook.submitAnswer stA u1 d1).1 u2 d2 =
      ((StudySessionHook.submitAnswer stA u1 d1).1,
        Questions.checkAnswer u2 qA.correctAnswer, []) := by
    rw [hA1]
    rw [StudySessionHook.submitAnswer]
    simp only [hqA, hgetA, Option.isSome_some, if_true]
  have hB1 : VocabSessionHook.submitAnswer stB u1 d1 t1 =
      ({ stB with
          answers := stB.answers ++
            [(qB.id, ⟨qB.id, qB.word.id, u1, qB.correctAnswer,
              Questions.checkAnswer u1 qB.correctAnswer, d1, t1⟩)]
          answeredCount := stB.answeredCount + 1
          correctCount := if Questions.checkAnswer u1 qB.correctAnswer then
            stB.correctCount + 1 else stB.correctCount },
        Questions.checkAnswer u1 qB.correctAnswer,
        [⟨qB.word.id, Questions.checkAnswer u1 qB.correctAnswer, d1⟩]) := by
    rw [VocabSessionHook.submitAnswer]
    simp only [hqB, hnewB]
  have hgetB : mapGet (stB.answers ++
      [(qB.id, (⟨qB.id, qB.word.id, u1, qB.correctAnswer,
        Questions.checkAnswer u1 qB.correctAnswer, d1, t1⟩ :
          VocabSessionHook.AnswerRecord))]) qB.id =
      some ⟨qB.id, qB.word.id, u1, qB.correctAnswer,
        Questions.checkAnswer u1 qB.correctAnswer, d1, t1⟩ :=
    mapGet_append_of_none _ _ _ hnewB
  have hB2 : VocabSessionHook.submitAnswer
      (VocabSessionHook.submitAnswer stB u1 d1 t1).1 u2 d2 t2 =
      ((VocabSessionHook.submitAnswer stB u1 d1 t1).1,
        Questions.checkAnswer u1 qB.correctAnswer, []) := by
    rw [hB1]
    rw [VocabSessionHook.submitAnswer]
    simp only [hqB, hgetB]
  have hK1 : VocabSessionHook.skipQuestion stB t1 =
      ({ stB with
          answers := stB.answers ++
            [(qB.id, ⟨qB.id, qB.word.id, "", qB.correctAnswer, false,
              DifficultyRating.hard, t1⟩)]
          answeredCount := stB.answeredCount + 1 },
        [⟨qB.word.id, false, DifficultyRating.hard⟩]) := by
    rw [VocabSessionHook.skipQuestion, hqB]
    simp [hnewB]
  have hgetK : mapGet (stB.answers ++
      [(qB.id, (⟨qB.id, qB.word.id, "", qB.correctAnswer, false,
        DifficultyRating.hard, t1⟩ : VocabSessionHook.AnswerRecord))]) qB.id =
      some ⟨qB.id, qB.word.id, "", qB.correctAnswer, false,
        DifficultyRating.hard, t1⟩ :=
    mapGet_append_of_none _ _ _ hnewB
  have hK2 : VocabSessionHook.submitAnswer
      (VocabSessionHook.skipQuestion stB t1).1 u2 d2 t2 =
      ((VocabSessionHook.skipQuestion stB t1).1, false, []) := by
    rw [hK1]
    rw [VocabSessionHook.submitAnswer]
    simp only [hqB, hgetK]
  refine ⟨⟨?_, ?_, ?_, ?_, ?_, ?_⟩, ⟨?_, ?_, ?_, ?_, ?_, ?_⟩, ?_, ?_, ?_, ?_⟩
  · rw [hA1]
  · rw [hA1]; exact hgetA
  · rw [hA1]
  · rw [hA2]
  · rw [hA2]
  · rw [hA2]
  · rw [hB1]
  · rw [hB1]; exact hgetB
  · rw [hB1]
  · rw [hB2]
  · rw [hB2]
  · rw [hB2]
  · rw [hK1]
  · rw [hK2]
  · rw [hK2]
  · rw [hK2]

/-- Witness for C2's amended theorem on the concrete one-question state. -/
theorem submitAnswer_at_most_once_witness :
    (sampleStateA.questions.get? sampleStateA.currentIndex =
        some sampleQuestion ∧
      mapGet sampleStateA.answers sampleQuestion.word.id = none) ∧
    ((StudySessionHook.submitAnswer sampleStateA "run" .good).2.2 =
        [⟨"w1", true, .good⟩] ∧
      (StudySessionHook.submitAnswer
          (StudySessionHook.submitAnswer sampleStateA "run" .good).1
          "walk" .good).2.2 = []) := by
  have h := submitAnswer_at_most_once sampleStateA sampleQuestion rfl rfl
    { sessionWords := [sampleWord], questions := [sampleQuestion],
      currentIndex := 0, startTime := none, answers := [], answeredCount := 0,
      correctCount := 0, prevLevels := [] } sampleQuestion rfl rfl
    "run" "walk" .good .good 0 0
  refine ⟨⟨rfl, rfl⟩, ?_, h.1.2.2.2.2.1⟩
  have := h.1.1
  rw [this]
  with_unfolding_all decide

/-! ## Claim C8: the session result -/

namespace VocabSessionHook

/-- The word pushed (if any) for a record's word by the level-change
classifier, "leveled up" side: the word is found in the session words, the
answer was correct, and the pre-session level was below 5. -/
def upSel (sw : List VocabularyWord) (pl : List (String × Int))
    (r : AnswerRecord) : Option VocabularyWord :=
  match sw.find? (fun w => w.id == r.wordId) with
  | some w => if r.isCorrect ∧ jsOr1 (mapGet pl r.wordId) < 5 then some w else none
  | none => none

/-- The "leveled down / incorrect" side: the word is found and the answer was
incorrect. -/
def downSel (sw : List VocabularyWord) (r : AnswerRecord) :
    Option VocabularyWord :=
  match sw.find? (fun w => w.id == r.wordId) with
  | some w => if r.isCorrect then none else some w
  | none => none

/-- The subsequence of records that are the first for their word id
(given ids already `seen`). -/
def firstRecords : List AnswerRecord → List String → List AnswerRecord
  | [], _ => []
  | r :: rs, seen =>
    if seen.contains r.wordId then firstRecords rs seen
    else r :: firstRecords rs (r.wordId :: seen)

/-- The processed-id set after walking the records. -/
def seenAfter : List AnswerRecord → List String → List String
  | [], seen => seen
  | r :: rs, seen =>
    if seen.contains r.wordId then seenAfter rs seen
    else seenAfter rs (r.wordId :: seen)

/-- Closed form of the `calculateResult` accumulator loop: it counts every
record, counts the correct ones, and classifies exactly the first record of
each word id through `upSel`/`downSel`. -/
theorem resultFold_spec (sw : List VocabularyWord) (pl : List (String × Int)) :
    ∀ (rs : List AnswerRecord) (ta tc : Nat)
      (up down inc : List VocabularyWord) (processed : List String),
      resultFold sw pl rs (ta, tc, up, down, inc, processed) =
        (ta + rs.length,
         tc + (rs.filter (fun r => r.isCorrect)).length,
         up ++ (firstRecords rs processed).filterMap (upSel sw pl),
         down ++ (firstRecords rs processed).filterMap (downSel sw),
         inc ++ (firstRecords rs processed).filterMap (downSel sw),
         seenAfter rs processed) := by
  intro rs
  induction rs with
  | nil =>
    intro ta tc up down inc processed
    simp [resultFold, firstRecords, seenAfter]
  | cons r rs ih =>
    intro ta tc up down inc processed
    simp only [resultFold, firstRecords, seenAfter]
    by_cases hc : processed.contains r.wordId
    · rw [if_pos hc, if_pos hc, if_pos hc, ih]
      by_cases hcorr : r.isCorrect <;>
        simp [hcorr, List.filter_cons] <;> omega
    · rw [if_neg hc, if_neg hc, if_neg hc]
      rcases hf : sw.find? (fun w => w.id == r.wordId) with _ | w
      · simp only [hf]
        rw [ih]
        have hup : upSel sw pl r = none := by simp [upSel, hf]
        have hdown : downSel sw r = none := by simp [downSel, hf]
        by_cases hcorr : r.isCorrect <;>
          simp [hcorr, List.filter_cons, hup, hdown] <;> omega
      · simp only [hf]
        by_cases hcond : r.isCorrect ∧ jsOr1 (mapGet pl r.wordId) < 5
        · rw [if_pos hcond, ih]
          have hup : upSel sw pl r = some w := by simp [upSel, hf, hcond]
          have hdown : downSel sw r = none := by simp [downSel, hf, hcond.1]
          simp [hcond.1, List.filter_cons, hup, hdown, List.append_assoc]
          omega
        · rw [if_neg hcond]
          by_cases hcorr : r.isCorrect
          · have hni : ¬ (¬ r.isCorrect = true) := by simp [hcorr]
            rw [if_neg hni, ih]
            have hup : upSel sw pl r = none := by simp [upSel, hf, hcond]
            have hdown : downSel sw r = none := by simp [downSel, hf, hcorr]
            simp [hcorr, List.filter_cons, hup, hdown]
            omega
          · have hi : (¬ r.isCorrect = true) := by simp [hcorr]
            rw [if_pos hi, ih]
            have hup : upSel sw pl r = none := by
              simp only [upSel, hf]
              rw [if_neg]
              simp [hcorr]
            have hdown : downSel sw r = some w := by
              simp only [downSel, hf]
              rw [if_neg]
              simp [hcorr]
            simp [hcorr, List.filter_cons, hup, hdown, List.append_assoc]
            omega

/-- Model of `firstRecords` keeps at most one record per word id, and none whose id
was already seen. -/
theorem firstRecords_keys :
    ∀ (rs : List AnswerRecord) (seen : List String),
      ((firstRecords rs seen).map (fun r => r.wordId)).Nodup ∧
      (∀ r ∈ firstRecords rs seen, r.wordId ∉ seen) := by
  intro rs
  induction rs with
  | nil => intro seen; exact ⟨List.nodup_nil, fun r h => absurd h (List.not_mem_nil r)⟩
  | cons r rs ih =>
    intro seen
    simp only [firstRecords]
    by_cases hc : seen.contains r.wordId
    · rw [if_pos hc]
      exact ih seen
    · rw [if_neg hc]
      obtain ⟨h1, h2⟩ := ih (r.wordId :: seen)
      have hnotseen : r.wordId ∉ seen := by
        intro h
        exact hc (List.elem_iff.mpr h)
      refine ⟨?_, ?_⟩
      · simp only [List.map_cons, List.nodup_cons]
        refine ⟨?_, h1⟩
        intro hmem
        rcases List.mem_map.mp hmem with ⟨r', hr', hid⟩
        exact h2 r' hr' (hid ▸ List.mem_cons_self _ _)
      · intro r' hr'
        rcases List.mem_cons.mp hr' with h | h
        · exact h ▸ hnotseen
        · intro hs
          exact h2 r' h (List.mem_cons_of_mem _ hs)

/-- A selector that only returns words whose id is the record's word id
maps a key-duplicate-free record list to a duplicate-free word list. -/
theorem filterMap_nodup_by_id (sel : AnswerRecord → Option VocabularyWord)
    (hkey : ∀ r w, sel r = some w → w.id = r.wordId) :
    ∀ (l : List AnswerRecord),
      ((l.map (fun r => r.wordId)).Nodup) → (l.filterMap sel).Nodup := by
  intro l
  induction l with
  | nil => intro _; exact List.nodup_nil
  | cons r rs ih =>
    intro hnd
    simp only [List.map_cons, List.nodup_cons] at hnd
    rcases hsel : sel r with _ | w
    · rw [List.filterMap_cons_none hsel]
      exact ih hnd.2
    · rw [List.filterMap_cons_some hsel]
      refine List.nodup_cons.mpr ⟨?_, ih hnd.2⟩
      intro hmem
      rcases List.mem_filterMap.mp hmem with ⟨r', hr', hsel'⟩
      have hid : w.id = r.wordId := hkey r w hsel
      have hid' : w.id = r'.wordId := hkey r' w hsel'
      exact hnd.1 (hid ▸ hid' ▸ List.mem_map_of_mem (fun r => r.wordId) hr')

theorem upSel_id (sw : List VocabularyWord) (pl : List (String × Int))
    (r : AnswerRecord) (w : VocabularyWord) (h : upSel sw pl r = some w) :
    w.id = r.wordId ∧ r.isCorrect = true := by
  simp only [upSel] at h
  rcases hf : sw.find? (fun v => v.id == r.wordId) with _ | v
  · simp only [hf] at h
    cases h
  · simp only [hf] at h
    by_cases hcond : r.isCorrect ∧ jsOr1 (mapGet pl r.wordId) < 5
    · rw [if_pos hcond] at h
      cases h
      have := List.find?_some hf
      exact ⟨by simpa using this, hcond.1⟩
    · rw [if_neg hcond] at h
      cases h

theorem downSel_id (sw : List VocabularyWord) (r : AnswerRecord)
    (w : VocabularyWord) (h : downSel sw r = some w) :
    w.id = r.wordId ∧ r.isCorrect = false := by
  simp only [downSel] at h
  rcases hf : sw.find? (fun v => v.id == r.wordId) with _ | v
  · simp only [hf] at h
    cases h
  · simp only [hf] at h
    by_cases hcorr : r.isCorrect
    · rw [if_pos hcorr] at h; cases h
    · rw [if_neg hcorr] at h
      cases h
      have := List.find?_some hf
      exact ⟨by simpa using this, by simpa using hcorr⟩

end VocabSessionHook

/-- Claim C8. At `end()` the result is computed from the answer ledger alone:
`totalQuestions` is the number of answered questions (not the number
generated), `correctAnswers` counts the correct records, accuracy is
`correct/answered*100` when `answered > 0` and `0` otherwise, and each
distinct answered word is classified exactly once by its first recorded
answer — into leveled-up when that answer was correct and its pre-session
level was below 5, or into leveled-down/incorrect when it was incorrect —
even if the word appears in multiple questions (the two lists are disjoint
and duplicate-free). -/
theorem calculateResult_spec (st : VocabSessionHook.SessionState)
    (endTime : ℚ) :
    (VocabSessionHook.calculateResult st endTime).totalQuestions =
      st.answers.length ∧
    (VocabSessionHook.calculateResult st endTime).correctAnswers =
      ((st.answers.map (fun p => p.2)).filter (fun r => r.isCorrect)).length ∧
    (VocabSessionHook.calculateResult st endTime).accuracy =
      (if 0 < st.answers.length then
        ((((st.answers.map (fun p => p.2)).filter
            (fun r => r.isCorrect)).length : ℚ) / (st.answers.length : ℚ)) * 100
       else 0) ∧
    (VocabSessionHook.calculateResult st endTime).wordsLeveledUp =
      (VocabSessionHook.firstRecords (st.answers.map (fun p => p.2))
        []).filterMap (VocabSessionHook.upSel st.sessionWords st.prevLevels) ∧
    (VocabSessionHook.calculateResult st endTime).wordsLeveledDown =
      (VocabSessionHook.firstRecords (st.answers.map (fun p => p.2))
        []).filterMap (VocabSessionHook.downSel st.sessionWords) ∧
    (VocabSessionHook.calculateResult st endTime).incorrectWords =
      (VocabSessionHook.calculateResult st endTime).wordsLeveledDown ∧
    (∀ w, ¬(w ∈ (VocabSessionHook.calculateResult st endTime).wordsLeveledUp ∧
      w ∈ (VocabSessionHook.calculateResult st endTime).wordsLeveledDown)) ∧
    (VocabSessionHook.calculateResult st endTime).wordsLeveledUp.Nodup ∧
    (VocabSessionHook.calculateResult st endTime).wordsLeveledDown.Nodup := by
  have hfold := VocabSessionHook.resultFold_spec st.sessionWords st.prevLevels
    (st.answers.map (fun p => p.2)) 0 0 [] [] [] []
  have hup : (VocabSessionHook.calculateResult st endTime).wordsLeveledUp =
      (VocabSessionHook.firstRecords (st.answers.map (fun p => p.2))
        []).filterMap (VocabSessionHook.upSel st.sessionWords st.prevLevels) := by
    simp [VocabSessionHook.calculateResult, hfold]
  have hdown : (VocabSessionHook.calculateResult st endTime).wordsLeveledDown =
      (VocabSessionHook.firstRecords (st.answers.map (fun p => p.2))
        []).filterMap (VocabSessionHook.downSel st.sessionWords) := by
    simp [VocabSessionHook.calculateResult, hfold]
  obtain ⟨hknd, _⟩ := VocabSessionHook.firstRecords_keys
    (st.answers.map (fun p => p.2)) []
  have hupnodup := VocabSessionHook.filterMap_nodup_by_id
    (VocabSessionHook.upSel st.sessionWords st.prevLevels)
    (fun r w h => (VocabSessionHook.upSel_id st.sessionWords st.prevLevels r w h).1)
    _ hknd
  have hdownnodup := VocabSessionHook.filterMap_nodup_by_id
    (VocabSessionHook.downSel st.sessionWords)
    (fun r w h => (VocabSessionHook.downSel_id st.sessionWords r w h).1)
    _ hknd
  refine ⟨?_, ?_, ?_, hup, hdown, ?_, ?_, ?_, ?_⟩
  · simp [VocabSessionHook.calculateResult, hfold]
  · simp [VocabSessionHook.calculateResult, hfold]
  · simp [VocabSessionHook.calculateResult, hfold]
  · simp [VocabSessionHook.calculateResult, hfold]
  · intro w hw
    rw [hup] at hw
    rw [hdown] at hw
    rcases List.mem_filterMap.mp hw.1 with ⟨r1, hr1, h1⟩
    rcases List.mem_filterMap.mp hw.2 with ⟨r2, hr2, h2⟩
    obtain ⟨hid1, hcor1⟩ :=
      VocabSessionHook.upSel_id st.sessionWords st.prevLevels r1 w h1
    obtain ⟨hid2, hcor2⟩ := VocabSessionHook.downSel_id st.sessionWords r2 w h2
    have hreq : r1 = r2 :=
      List.inj_on_of_nodup_map hknd hr1 hr2 (hid1 ▸ hid2 ▸ rfl)
    rw [hreq] at hcor1
    rw [hcor1] at hcor2
    cases hcor2
  · rw [hup]
    exact hupnodup
  · rw [hdown]
    exact hdownnodup

/-- A session that generated 12 questions but has only 5 answer records
(3 correct). -/
def fiveOfTwelveState : VocabSessionHook.SessionState :=
  { sessionWords := []
    questions := List.replicate 12 sampleQuestion
    currentIndex := 0
    startTime := none
    answers := [("a1", ⟨"a1", "x1", "u", "run", true, .good, 0⟩),
      ("a2", ⟨"a2", "x2", "u", "run", false, .good, 0⟩),
      ("a3", ⟨"a3", "x3", "u", "run", true, .good, 0⟩),
      ("a4", ⟨"a4", "x4", "u", "run", false, .good, 0⟩),
      ("a5", ⟨"a5", "x5", "u", "run", true, .good, 0⟩)]
    answeredCount := 5
    correctCount := 3
    prevLevels := [] }

/-- Witness for C8: with 12 generated questions and 5 answers, the result
reports `totalQuestions = 5`, not 12. -/
theorem calculateResult_spec_witness :
    fiveOfTwelveState.questions.length = 12 ∧
    (VocabSessionHook.calculateResult fiveOfTwelveState 0).totalQuestions = 5 ∧
    (VocabSessionHook.calculateResult fiveOfTwelveState 0).correctAnswers = 3 := by
  have h := calculateResult_spec fiveOfTwelveState 0
  refine ⟨by decide, ?_, ?_⟩
  · rw [h.1]
    decide
  · rw [h.2.1]
    decide
